import Mathlib

/-!
# Verification of the MarkItDown GUI batch conversion scheduler

Shallow embedding of `src/gui/core/batch_processor.py` (`TaskPriority`,
`TaskStatus`, `BatchTask`, `BatchStatistics`, `FileFilter`, `BatchProcessor`)
together with the fragment of `src/gui/core/events.py` the scheduler uses.

Modelling conventions:
* Python `datetime.now()` / `time.time()` values are supplied to each
  operation as explicit natural-number parameters (`nowMs`, `createdAt`);
  wall-clock durations observed by `Future.result(timeout=...)` are explicit
  `elapsedSecs` parameters.
* Mutable Python objects (`BatchTask` instances shared between the task
  table, the priority queue and the futures dict) are modelled as entries of
  a list `objs`; the queue / futures / monitor collections hold indices into
  `objs`, which play the role of object references.
* Filesystem effects (`Path.stat`, `Path.resolve`, reading a file for the
  content fingerprint) are modelled by data carried on the path / passed to
  the operation: `none` models the call raising an exception.
* Compiled regular expressions are modelled as their `search` predicate
  (`String → Bool`).
-/

namespace BatchProc

/-- `TaskPriority` enum of `batch_processor.py` (`LOW = 0 … URGENT = 3`). -/
inductive TaskPriority where
  | LOW
  | NORMAL
  | HIGH
  | URGENT
deriving DecidableEq, Repr

/-- `TaskPriority.value` of the Python enum. -/
def TaskPriority.value : TaskPriority → Nat
  | .LOW => 0
  | .NORMAL => 1
  | .HIGH => 2
  | .URGENT => 3

/-- `TaskStatus` enum of `batch_processor.py`. -/
inductive TaskStatus where
  | PENDING
  | QUEUED
  | PROCESSING
  | COMPLETED
  | FAILED
  | CANCELLED
  | RETRYING
deriving DecidableEq, Repr

/-- The `BatchTask` dataclass (fields relevant to the scheduler's logic;
`started_at` / `completed_at` timestamps carry no control flow and are
omitted). -/
structure BatchTask where
  task_id : String
  input_file : String
  output_file : Option String := none
  priority : TaskPriority := .NORMAL
  status : TaskStatus := .PENDING
  retry_count : Nat := 0
  max_retries : Nat := 3
  created_at : Nat := 0
  error_message : Option String := none
  result_text : Option String := none
  file_hash : Option String := none
deriving DecidableEq, Repr

/-- The `task_id` default factory: `f"task_{int(time.time() * 1000)}"`. -/
def mkTaskId (nowMs : Nat) : String := "task_" ++ toString nowMs

/-- Task construction (`BatchTask(...)` followed by `__post_init__`): the
content fingerprint is the MD5 of the first MiB of the input file when it is
readable; `fileHash = none` models a missing file or an I/O error during
hashing (the exception is logged and swallowed). -/
def newBatchTask (nowMs createdAt : Nat) (input_file : String)
    (output_file : Option String) (priority : TaskPriority)
    (max_retries : Nat) (fileHash : Option String) : BatchTask :=
  { task_id := mkTaskId nowMs
    input_file := input_file
    output_file := output_file
    priority := priority
    status := .PENDING
    retry_count := 0
    max_retries := max_retries
    created_at := createdAt
    file_hash := fileHash }

/-- `BatchTask.__lt__`: higher priority first, then earlier creation time. -/
def BatchTask.lt (a b : BatchTask) : Bool :=
  if a.priority.value ≠ b.priority.value then
    decide (a.priority.value > b.priority.value)
  else
    decide (a.created_at < b.created_at)

/-- The `BatchStatistics` dataclass counters (derived-metric inputs; the
`tasks_by_status` buckets, byte counters and timestamps carry no control flow
for the verified claims and are omitted). -/
structure BatchStatistics where
  total_tasks : Nat := 0
  completed_tasks : Nat := 0
  failed_tasks : Nat := 0
  cancelled_tasks : Nat := 0
  retry_count : Nat := 0
deriving DecidableEq, Repr

/-- `BatchStatistics.success_rate`: `completed / total * 100`, `0.0` when
`total_tasks == 0` (exact rational arithmetic in place of Python floats; the
guarded branch returns the exact literal `0.0` in both). -/
def BatchStatistics.success_rate (s : BatchStatistics) : ℚ :=
  if s.total_tasks = 0 then 0
  else (s.completed_tasks : ℚ) / (s.total_tasks : ℚ) * 100

/-- The result of a successful `Path.stat()` call (fields used by
`FileFilter.matches`). -/
structure FileStat where
  st_size : Nat
  st_mtime : Int
deriving DecidableEq, Repr

/-- A filesystem path as observed by `FileFilter.matches`: the `pathlib`
accessors it reads (`name`, `suffix`, `str(path)`) plus the outcome of the
filesystem calls it performs.  `stat = none` models `path.stat()` raising;
`resolved = none` models `path.resolve()` raising;  `resolvedParents` is
`[str(p) for p in path.resolve().parents]`. -/
structure FPath where
  name : String
  suffix : String
  pathStr : String
  stat : Option FileStat := none
  resolved : Option String := none
  resolvedParents : List String := []

/-- The `FileFilter` criteria set.  `name_pattern` and `exclude_patterns`
are compiled regular expressions, modelled by their `search` predicates. -/
structure FileFilter where
  extensions : Option (List String) := none
  min_size : Option Nat := none
  max_size : Option Nat := none
  min_date : Option Int := none
  max_date : Option Int := none
  name_pattern : Option (String → Bool) := none
  exclude_paths : List FPath := []
  exclude_patterns : List (String → Bool) := []

/-- Python truthiness of the optional integer size bounds:
`None` and `0` are falsy, any other integer is truthy
(this is the guard `if self.min_size and ...`). -/
def optNatTruthy : Option Nat → Bool
  | none => false
  | some n => n ≠ 0

/-- Truthiness of the stored `extensions` value: `None` and the empty list
are falsy (`if self.extensions:`). -/
def extsTruthy : Option (List String) → Bool
  | none => false
  | some l => !l.isEmpty

/-- The size-criterion block of `FileFilter.matches` applied to a known
`st_size` (the two `if self.min_size and ... / if self.max_size and ...`
guards; returns `false` when the file is rejected). -/
def sizeCheck (min_size max_size : Option Nat) (file_size : Nat) : Bool :=
  if optNatTruthy min_size && decide (file_size < min_size.getD 0) then false
  else if optNatTruthy max_size && decide (file_size > max_size.getD 0) then false
  else true

/-- The modification-date block of `FileFilter.matches` applied to a known
`st_mtime` (a `datetime` is always truthy, so the guard is just presence). -/
def dateCheck (min_date max_date : Option Int) (mtime : Int) : Bool :=
  if (match min_date with
      | some d => decide (mtime < d)
      | none => false) then false
  else if (match max_date with
      | some d => decide (mtime > d)
      | none => false) then false
  else true

/-- The extension block of `FileFilter.matches`:
`file_path.suffix.lower() not in [e.lower() for e in self.extensions]`
rejects, guarded by the truthiness of `self.extensions`. -/
def extCheck (extensions : Option (List String)) (suffix : String) : Bool :=
  if extsTruthy extensions then
    ((extensions.getD []).map String.toLower).contains suffix.toLower
  else true

/-- The exclude-paths block: a single `exclude_path` rejects `file_path`
when (inside a `try` whose `except` passes) `exclude_path.resolve()` is among
the parents of `file_path.resolve()` or equals it.  Either `resolve()`
raising skips the check for that entry. -/
def excludePathHits (p : FPath) (ep : FPath) : Bool :=
  match ep.resolved, p.resolved with
  | some er, some pr => p.resolvedParents.contains er || pr == er
  | _, _ => false

/-- `FileFilter.matches`, translated block by block from the source.  The
source calls `file_path.stat()` twice (size block, date block); both calls
observe the same file, modelled by the single `stat` field.  Any block that
rejects returns `False`; a raising `stat()` returns `False` from inside the
corresponding `try`. -/
def FileFilter.matches (f : FileFilter) (p : FPath) : Bool :=
  if !extCheck f.extensions p.suffix then false
  else match p.stat with
    | none => false
    | some st =>
      if !sizeCheck f.min_size f.max_size st.st_size then false
      else if !dateCheck f.min_date f.max_date st.st_mtime then false
      else if (match f.name_pattern with
          | some pat => !pat p.name
          | none => false) then false
      else if f.exclude_paths.any (excludePathHits p) then false
      else if f.exclude_patterns.any (fun pat => pat p.pathStr) then false
      else true

/-- `FileFilter.filter_files`: the list comprehension
`[fp for fp in file_paths if self.matches(fp)]`. -/
def FileFilter.filter_files (f : FileFilter) (file_paths : List FPath) : List FPath :=
  file_paths.filter (fun fp => f.matches fp)

/-- Fragment of the `EventType` enum of `src/gui/core/events.py` relevant to
`BatchProcessor` (the conversion lifecycle members). -/
inductive EventType where
  | CONVERSION_STARTED
  | CONVERSION_PROGRESS
  | CONVERSION_COMPLETED
  | CONVERSION_FAILED
  | CONVERSION_CANCELLED
deriving DecidableEq, Repr

/-- An event emitted on the bus by `BatchProcessor` (`event_type` plus the
two payload entries it ever sends: the task id and either the input file or
the error text). -/
structure Event where
  etype : EventType
  task_id : String
  info : Option String := none
deriving DecidableEq, Repr

/-- The mutable state of one `BatchProcessor` instance (sync-callback
strategy; the async-executor variant differs only in which pool runs the
conversion and is not modelled).

* `objs` — every admitted `BatchTask` object, in admission order; an index
  into `objs` models a Python object reference.
* `queue` — the contents of `task_queue` (indices).
* `futures` — the keys of the `futures` dict (in-flight submissions).
* `monitors` — the dispatched submissions whose `monitor_future` thread has
  not yet fired; a completion can be handled only for an outstanding monitor
  (the dict entry may be deleted by cancellation while the monitor thread is
  still alive, hence the separate list). -/
structure ProcState where
  objs : List BatchTask := []
  queue : List Nat := []
  futures : List Nat := []
  monitors : List Nat := []
  duplicate_hashes : List String := []
  statistics : BatchStatistics := {}
  is_cancelled : Bool := false
  events : List Event := []

/-- Freshly constructed processor (`BatchProcessor.__init__`). -/
def initState : ProcState := {}

/-- `BatchProcessor.add_task`.  Builds the task (fingerprint included), and
if the fingerprint is present in `duplicate_hashes` short-circuits to a
cancelled, unregistered, un-enqueued task counted only in `cancelled_tasks`;
otherwise registers it, enqueues it, records the hash, increments
`total_tasks`, marks it `QUEUED` and emits `CONVERSION_STARTED`. -/
def add_task (st : ProcState) (nowMs createdAt : Nat) (input_file : String)
    (output_file : Option String) (priority : TaskPriority)
    (max_retries : Nat) (fileHash : Option String) : BatchTask × ProcState :=
  let task := newBatchTask nowMs createdAt input_file output_file priority
    max_retries fileHash
  if (match task.file_hash with
      | some h => st.duplicate_hashes.contains h
      | none => false) then
    let task := { task with status := .CANCELLED,
                            error_message := some "Duplicate file" }
    (task, { st with statistics :=
      { st.statistics with
          cancelled_tasks := st.statistics.cancelled_tasks + 1 } })
  else
    let idx := st.objs.length
    let task := { task with status := .QUEUED }
    (task, { st with
      objs := st.objs ++ [task]
      queue := st.queue ++ [idx]
      duplicate_hashes :=
        match task.file_hash with
        | some h => st.duplicate_hashes ++ [h]
        | none => st.duplicate_hashes
      statistics :=
        { st.statistics with total_tasks := st.statistics.total_tasks + 1 }
      events := st.events ++
        [{ etype := .CONVERSION_STARTED, task_id := task.task_id,
           info := some input_file }] })

/-- `BatchProcessor.add_files`.  Applies the filter, then iterates calling
`add_task(input_file=file_path, output_file=..., priority=priority,
max_retries=max_retries)`.  The name `max_retries` is not bound anywhere in
the scope of `add_files` (it is neither a parameter nor a local), so the
first loop iteration raises `NameError` before `add_task` runs; with an
empty (post-filter) path list the loop body never executes and the empty
task list is returned. -/
def add_files (st : ProcState) (file_paths : List FPath)
    (output_dir : Option String) (file_filter : Option FileFilter)
    (priority : TaskPriority) : Except String (List BatchTask × ProcState) :=
  let fps := match file_filter with
    | some f => f.filter_files file_paths
    | none => file_paths
  match fps with
  | [] => .ok ([], st)
  | _ :: _ => .error "NameError: name 'max_retries' is not defined"

/-- In-place mutation of the task object at index `i` (no-op when the index
is dangling, which never happens in reachable states). -/
def updateTask (objs : List BatchTask) (i : Nat)
    (f : BatchTask → BatchTask) : List BatchTask :=
  match objs[i]? with
  | some t => objs.set i (f t)
  | none => objs

/-- One productive iteration of `BatchProcessor._worker_loop` in which the
priority queue yields the task at reference `i` (the heap returns a minimal
task under `BatchTask.__lt__`; which element is minimal does not affect the
verified properties, so the popped reference is a parameter).  A set pause
gate only delays this iteration and is not modelled.  When `is_cancelled` is
set the loop breaks; a popped task already marked `CANCELLED` is skipped;
otherwise the task is marked `PROCESSING` and submitted to the executor,
registering its future and its monitor thread. -/
def worker_step (st : ProcState) (i : Nat) : ProcState :=
  if st.is_cancelled then st
  else if st.queue.contains i then
    let q' := st.queue.erase i
    match st.objs[i]? with
    | none => { st with queue := q' }
    | some t =>
      if t.status = .CANCELLED then { st with queue := q' }
      else
        { st with
          queue := q'
          objs := st.objs.set i { t with status := .PROCESSING }
          futures := st.futures ++ [i]
          monitors := st.monitors ++ [i] }
  else st

/-- `BatchProcessor._handle_task_result` acting on the task at reference `i`
(plus the `finally: del self.futures[task_id]` of the caller).  Success
stores the result text, counts the completion and emits
`CONVERSION_COMPLETED` (the best-effort output write has no scheduler-state
effect).  Failure with remaining retry budget and no global cancellation
increments `retry_count`, marks `RETRYING` and counts the retry (the
deferred re-enqueue is the separate `requeue_after_delay`); otherwise the
task is marked `FAILED`, the error text is stored and `CONVERSION_FAILED`
is emitted. -/
def handle_task_result (st : ProcState) (i : Nat) (success : Bool)
    (result_text : String) (error : String) : ProcState :=
  match st.objs[i]? with
  | none => st
  | some t =>
    if success then
      { st with
        objs := st.objs.set i
          { t with status := .COMPLETED, result_text := some result_text }
        statistics := { st.statistics with
          completed_tasks := st.statistics.completed_tasks + 1 }
        futures := st.futures.erase i
        events := st.events ++
          [{ etype := .CONVERSION_COMPLETED, task_id := t.task_id,
             info := some t.input_file }] }
    else if t.retry_count < t.max_retries && !st.is_cancelled then
      { st with
        objs := st.objs.set i
          { t with retry_count := t.retry_count + 1, status := .RETRYING }
        statistics := { st.statistics with
          retry_count := st.statistics.retry_count + 1 }
        futures := st.futures.erase i }
    else
      { st with
        objs := st.objs.set i
          { t with status := .FAILED, error_message := some error }
        statistics := { st.statistics with
          failed_tasks := st.statistics.failed_tasks + 1 }
        futures := st.futures.erase i
        events := st.events ++
          [{ etype := .CONVERSION_FAILED, task_id := t.task_id,
             info := some error }] }

/-- The observable way the submitted work ends, as seen by the monitor
thread of `_handle_future`:
* `finished` — `_process_task` returned its result dict (it catches every
  callback exception into `success=False`), after `elapsedSecs` of wall
  clock carried by the enclosing `futureDone` operation;
* `raised` — the future itself raised (e.g. the fail-fast `ValueError` when
  no conversion callback was supplied);
* `wasCancelled` — the future was cancelled before running:
  `future.result` raises `CancelledError`, which is not an `Exception`, so
  the monitor thread dies after its `finally` clause. -/
inductive ConvReturn where
  | finished (success : Bool) (result_text : String) (error : String)
  | raised (excMsg : String)
  | wasCancelled
deriving DecidableEq, Repr

/-- The wall-clock ceiling passed to `future.result(timeout=300)`. -/
def FUTURE_TIMEOUT_SECS : Nat := 300

/-- The monitor thread body of `BatchProcessor._handle_future` firing for
the submission at reference `i`.  `future.result(timeout=300)` waits at most
300 seconds: if the work has not finished by then it raises
`concurrent.futures.TimeoutError` (whose `str` is the empty string) and the
`except Exception` branch marks the task `FAILED` outright — the retry logic
of `_handle_task_result` is never consulted.  Likewise for a future that
itself raised.  In every case the `finally` clause deletes the `futures`
entry (if still present) and the monitor is spent. -/
def monitor_future (st : ProcState) (i : Nat) (elapsedSecs : Nat)
    (ret : ConvReturn) : ProcState :=
  if st.monitors.contains i then
    let st' := { st with monitors := st.monitors.erase i }
    match ret with
    | .wasCancelled => { st' with futures := st'.futures.erase i }
    | .raised excMsg =>
      match st'.objs[i]? with
      | none => { st' with futures := st'.futures.erase i }
      | some t =>
        { st' with
          objs := st'.objs.set i
            { t with status := .FAILED, error_message := some excMsg }
          statistics := { st'.statistics with
            failed_tasks := st'.statistics.failed_tasks + 1 }
          futures := st'.futures.erase i }
    | .finished success result_text error =>
      if elapsedSecs > FUTURE_TIMEOUT_SECS then
        match st'.objs[i]? with
        | none => { st' with futures := st'.futures.erase i }
        | some t =>
          { st' with
            objs := st'.objs.set i
              { t with status := .FAILED, error_message := some "" }
            statistics := { st'.statistics with
              failed_tasks := st'.statistics.failed_tasks + 1 }
            futures := st'.futures.erase i }
      else
        handle_task_result st' i success result_text error
  else st

/-- The deferred re-enqueue `requeue_after_delay` firing (after its
`time.sleep`) for the task at reference `i`: only when the processor is not
globally cancelled and the task is still `RETRYING` is it marked `QUEUED`
and pushed back onto the priority queue. -/
def requeue_after_delay (st : ProcState) (i : Nat) : ProcState :=
  match st.objs[i]? with
  | none => st
  | some t =>
    if !st.is_cancelled && t.status = .RETRYING then
      { st with
        objs := st.objs.set i { t with status := .QUEUED }
        queue := st.queue ++ [i] }
    else st

/-- `BatchProcessor.cancel_task` for the task at reference `i`.  An
in-flight entry of the `futures` dict is cancelled (marked `CANCELLED`,
counted, removed from the dict — its monitor thread stays alive); otherwise
a still-`QUEUED` task is marked and counted (it stays inside the physical
queue and is skipped when popped).  Returns whether a task was cancelled. -/
def cancel_task (st : ProcState) (i : Nat) : Bool × ProcState :=
  if st.futures.contains i then
    (true,
      { st with
        objs := updateTask st.objs i (fun t => { t with status := .CANCELLED })
        statistics :=
          match st.objs[i]? with
          | some _ => { st.statistics with
              cancelled_tasks := st.statistics.cancelled_tasks + 1 }
          | none => st.statistics
        futures := st.futures.erase i })
  else
    match st.objs[i]? with
    | some t =>
      if t.status = .QUEUED then
        (true,
          { st with
            objs := st.objs.set i { t with status := .CANCELLED }
            statistics := { st.statistics with
              cancelled_tasks := st.statistics.cancelled_tasks + 1 } })
      else (false, st)
    | none => (false, st)

/-- The loop bodies of `cancel_all`: mark every referenced task `CANCELLED`
and bump `cancelled_tasks` once per reference (the queue-drain loop counts
unconditionally, even for tasks already `CANCELLED`). -/
def cancelRefs : List Nat → List BatchTask × Nat → List BatchTask × Nat
  | [], acc => acc
  | i :: rest, (objs, c) =>
    match objs[i]? with
    | some t => cancelRefs rest (objs.set i { t with status := .CANCELLED }, c + 1)
    | none => cancelRefs rest (objs, c)

/-- `BatchProcessor.cancel_all`: set the sticky cancellation flag, cancel
every not-yet-done future (marking and counting each), clear the `futures`
dict, then drain the queue marking and counting every still-queued task.
Monitor threads of cancelled futures stay alive (they observe
`CancelledError` or the late result). -/
def cancel_all (st : ProcState) : ProcState :=
  let r := cancelRefs st.queue
    (cancelRefs st.futures (st.objs, st.statistics.cancelled_tasks))
  { st with
    is_cancelled := true
    objs := r.1
    queue := []
    futures := []
    statistics := { st.statistics with cancelled_tasks := r.2 } }

/-- One scheduler-visible operation: the public mutators plus the internal
completion / retry steps (pause, resume, `start` and `stop` mutate no
counter or task status beyond what `cancel_all` — called by `stop` — does,
and are not separate operations). -/
inductive ProcOp where
  | add (nowMs createdAt : Nat) (input_file : String)
      (output_file : Option String) (priority : TaskPriority)
      (max_retries : Nat) (fileHash : Option String)
  | dispatch (i : Nat)
  | futureDone (i : Nat) (elapsedSecs : Nat) (ret : ConvReturn)
  | requeue (i : Nat)
  | cancelTask (i : Nat)
  | cancelAll

/-- Effect of one operation on the processor state. -/
def step (st : ProcState) : ProcOp → ProcState
  | .add nowMs createdAt input_file output_file priority max_retries fileHash =>
    (add_task st nowMs createdAt input_file output_file priority max_retries
      fileHash).2
  | .dispatch i => worker_step st i
  | .futureDone i elapsedSecs ret => monitor_future st i elapsedSecs ret
  | .requeue i => requeue_after_delay st i
  | .cancelTask i => (cancel_task st i).2
  | .cancelAll => cancel_all st

/-- The state reached from a fresh processor by a sequence of operations. -/
def run (ops : List ProcOp) : ProcState := ops.foldl step initState

/-- One `task_queue.get()` of the `queue.PriorityQueue` (a binary heap keyed
by `BatchTask.__lt__`): extract a minimal task under `BatchTask.lt` from the
current queue contents.  `popMin m xs` scans `xs` with running minimum `m`
and returns the extracted minimum together with the remaining tasks. -/
def popMin (m : BatchTask) : List BatchTask → BatchTask × List BatchTask
  | [] => (m, [])
  | x :: xs =>
    if BatchTask.lt x m then
      ((popMin x xs).1, m :: (popMin x xs).2)
    else
      ((popMin m xs).1, x :: (popMin m xs).2)

lemma popMin_snd_length (m : BatchTask) :
    ∀ xs : List BatchTask, (popMin m xs).2.length = xs.length := by
  intro xs
  induction xs generalizing m with
  | nil => rfl
  | cons x xs ih =>
    simp only [popMin]
    split <;> simp [ih]

/-- Draining the priority queue: the sequence of tasks obtained by repeated
`task_queue.get()` until empty. -/
def dequeueAll : List BatchTask → List BatchTask
  | [] => []
  | x :: xs => (popMin x xs).1 :: dequeueAll (popMin x xs).2
termination_by l => l.length
decreasing_by
  simp only [popMin_snd_length]
  simp

/-! ## Theorems -/

/-- The early-return chain of `matches` is the conjunction of its blocks. -/
lemma matches_eq_and (f : FileFilter) (p : FPath) :
    f.matches p =
      (extCheck f.extensions p.suffix &&
        match p.stat with
        | none => false
        | some st =>
          sizeCheck f.min_size f.max_size st.st_size &&
          dateCheck f.min_date f.max_date st.st_mtime &&
          (match f.name_pattern with
            | some pat => pat p.name
            | none => true) &&
          !(f.exclude_paths.any (excludePathHits p)) &&
          !(f.exclude_patterns.any fun pat => pat p.pathStr)) := by
  unfold FileFilter.matches
  cases hstat : p.stat with
  | none => cases hext : extCheck f.extensions p.suffix <;> simp
  | some st =>
    cases hext : extCheck f.extensions p.suffix <;>
      cases hsz : sizeCheck f.min_size f.max_size st.st_size <;>
      cases hdt : dateCheck f.min_date f.max_date st.st_mtime <;>
      cases hep : f.exclude_paths.any (excludePathHits p) <;>
      cases hpt : f.exclude_patterns.any (fun pat => pat p.pathStr) <;>
      cases hnp : f.name_pattern <;>
      simp [*]

/-- C9: `filter_files` keeps exactly the matching paths in input order
(`Sublist` of the input), and `matches` succeeds iff the path passes every
configured criterion — extension (case-insensitive exact match on the
suffix, visible in `extCheck`), size, modification date, name pattern,
exclusion paths and exclusion patterns — with a path whose `stat()` fails
excluded (no exception; `matches` is a total `Bool` function).  The last
three conjuncts record that an unset criterion is vacuously true. -/
theorem filter_files_matches_spec (f : FileFilter) (l : List FPath) (p : FPath) :
    (f.filter_files l).Sublist l
    ∧ (p ∈ f.filter_files l ↔ p ∈ l ∧ f.matches p = true)
    ∧ (f.matches p = true ↔
        extCheck f.extensions p.suffix = true
        ∧ ∃ st, p.stat = some st
            ∧ sizeCheck f.min_size f.max_size st.st_size = true
            ∧ dateCheck f.min_date f.max_date st.st_mtime = true
            ∧ (∀ pat, f.name_pattern = some pat → pat p.name = true)
            ∧ (∀ ep ∈ f.exclude_paths, excludePathHits p ep = false)
            ∧ (∀ pat ∈ f.exclude_patterns, pat p.pathStr = false))
    ∧ (∀ sfx, extCheck none sfx = true)
    ∧ (∀ sz, sizeCheck none none sz = true)
    ∧ (∀ mt, dateCheck none none mt = true) := by
  refine ⟨List.filter_sublist l, List.mem_filter, ?_, ?_, ?_, ?_⟩
  · rw [matches_eq_and]
    cases hstat : p.stat with
    | none => simp
    | some st =>
      have hmatch : ∀ (o : Option (String → Bool)) (s : String),
          ((match o with | some pat => pat s | none => true) = true)
            ↔ ∀ pat, o = some pat → pat s = true := by
        intro o s
        cases o <;> simp
      simp only [hstat, Bool.and_eq_true, Bool.not_eq_true', List.any_eq_false,
        Bool.not_eq_true, Option.some.injEq, exists_eq_left', hmatch, and_assoc]
  · intro sfx; rfl
  · intro sz; rfl
  · intro mt; rfl

/-- C10: a `0` size bound is falsy under Python truthiness and is therefore
skipped, exactly like an unset (`None`) bound; in particular a filter whose
only criterion is `max_size = 0` accepts every stat-able file, whatever its
size, instead of rejecting all non-empty files. -/
theorem size_zero_bound_is_unset :
    (∀ mn sz, sizeCheck mn (some 0) sz = sizeCheck mn none sz)
    ∧ (∀ mx sz, sizeCheck (some 0) mx sz = sizeCheck none mx sz)
    ∧ (∀ (name suffix pathStr : String) (st : FileStat),
        FileFilter.matches { max_size := some 0 }
          { name := name, suffix := suffix, pathStr := pathStr,
            stat := some st } = true) := by
  refine ⟨?_, ?_, ?_⟩
  · intro mn sz
    simp [sizeCheck, optNatTruthy]
  · intro mx sz
    simp [sizeCheck, optNatTruthy]
  · intro name suffix pathStr st
    simp [FileFilter.matches, extCheck, extsTruthy, sizeCheck, dateCheck,
      optNatTruthy]

/-- C2 (code bug): `add_files` evaluates the unbound name `max_retries` on
the first loop iteration, so any non-empty (post-filter) path list raises
`NameError` and produces no tasks; only an empty path list returns
normally. -/
theorem add_files_raises_nameerror :
    (add_files initState
        [{ name := "a.txt", suffix := ".txt", pathStr := "a.txt" }]
        none none .NORMAL
      = .error "NameError: name 'max_retries' is not defined")
    ∧ (∀ st p ps output_dir priority,
        add_files st (p :: ps) output_dir none priority
          = .error "NameError: name 'max_retries' is not defined")
    ∧ (∀ st output_dir file_filter priority,
        add_files st [] output_dir file_filter priority = .ok ([], st)) := by
  refine ⟨rfl, fun st p ps output_dir priority => rfl, ?_⟩
  intro st output_dir file_filter priority
  cases file_filter <;> rfl

/-- C1 counterexample: adding the same (same-fingerprint) file twice leaves
`total_tasks = 1` — the duplicate is counted in `cancelled_tasks` but the
early return skips the `total_tasks` increment, so `total_tasks` does NOT
count both tasks. -/
theorem duplicate_total_counterexample :
    (run [.add 0 0 "a.txt" none .NORMAL 3 (some "h"),
          .add 1 1 "b.txt" none .NORMAL 3 (some "h")]).statistics.total_tasks = 1
    ∧ (run [.add 0 0 "a.txt" none .NORMAL 3 (some "h"),
            .add 1 1 "b.txt" none .NORMAL 3 (some "h")]).statistics.cancelled_tasks = 1
    ∧ ¬ (run [.add 0 0 "a.txt" none .NORMAL 3 (some "h"),
              .add 1 1 "b.txt" none .NORMAL 3 (some "h")]).statistics.total_tasks = 2 := by
  refine ⟨rfl, rfl, by decide⟩

/-- C1 (amended): adding two tasks with the same fresh fingerprint yields
one `QUEUED`, enqueued task and one task immediately `CANCELLED` with error
"Duplicate file" that is neither registered nor enqueued; `total_tasks`
counts only the first task while `cancelled_tasks` counts the duplicate. -/
theorem add_task_duplicate_suppression (st : ProcState) (h : String)
    (hfresh : st.duplicate_hashes.contains h = false)
    (nowMs₁ createdAt₁ nowMs₂ createdAt₂ : Nat) (in₁ in₂ : String)
    (out₁ out₂ : Option String) (prio₁ prio₂ : TaskPriority) (mr₁ mr₂ : Nat) :
    (add_task st nowMs₁ createdAt₁ in₁ out₁ prio₁ mr₁ (some h)).1.status = .QUEUED
    ∧ (add_task st nowMs₁ createdAt₁ in₁ out₁ prio₁ mr₁ (some h)).2.queue
        = st.queue ++ [st.objs.length]
    ∧ (add_task (add_task st nowMs₁ createdAt₁ in₁ out₁ prio₁ mr₁ (some h)).2
          nowMs₂ createdAt₂ in₂ out₂ prio₂ mr₂ (some h)).1.status = .CANCELLED
    ∧ (add_task (add_task st nowMs₁ createdAt₁ in₁ out₁ prio₁ mr₁ (some h)).2
          nowMs₂ createdAt₂ in₂ out₂ prio₂ mr₂ (some h)).1.error_message
        = some "Duplicate file"
    ∧ (add_task (add_task st nowMs₁ createdAt₁ in₁ out₁ prio₁ mr₁ (some h)).2
          nowMs₂ createdAt₂ in₂ out₂ prio₂ mr₂ (some h)).2.queue
        = (add_task st nowMs₁ createdAt₁ in₁ out₁ prio₁ mr₁ (some h)).2.queue
    ∧ (add_task (add_task st nowMs₁ createdAt₁ in₁ out₁ prio₁ mr₁ (some h)).2
          nowMs₂ createdAt₂ in₂ out₂ prio₂ mr₂ (some h)).2.objs
        = (add_task st nowMs₁ createdAt₁ in₁ out₁ prio₁ mr₁ (some h)).2.objs
    ∧ (add_task (add_task st nowMs₁ createdAt₁ in₁ out₁ prio₁ mr₁ (some h)).2
          nowMs₂ createdAt₂ in₂ out₂ prio₂ mr₂ (some h)).2.statistics.total_tasks
        = st.statistics.total_tasks + 1
    ∧ (add_task (add_task st nowMs₁ createdAt₁ in₁ out₁ prio₁ mr₁ (some h)).2
          nowMs₂ createdAt₂ in₂ out₂ prio₂ mr₂ (some h)).2.statistics.cancelled_tasks
        = st.statistics.cancelled_tasks + 1 := by
  have hfresh' : h ∉ st.duplicate_hashes := by simpa using hfresh
  simp [add_task, newBatchTask, hfresh', List.mem_append]

/-- Witness for `add_task_duplicate_suppression` at a fresh processor. -/
theorem add_task_duplicate_suppression_witness :
    (add_task initState 0 0 "a.txt" none .NORMAL 3 (some "h")).1.status = .QUEUED
    ∧ (add_task initState 0 0 "a.txt" none .NORMAL 3 (some "h")).2.queue
        = initState.queue ++ [initState.objs.length]
    ∧ (add_task (add_task initState 0 0 "a.txt" none .NORMAL 3 (some "h")).2
          1 1 "b.txt" none .NORMAL 3 (some "h")).1.status = .CANCELLED
    ∧ (add_task (add_task initState 0 0 "a.txt" none .NORMAL 3 (some "h")).2
          1 1 "b.txt" none .NORMAL 3 (some "h")).1.error_message
        = some "Duplicate file"
    ∧ (add_task (add_task initState 0 0 "a.txt" none .NORMAL 3 (some "h")).2
          1 1 "b.txt" none .NORMAL 3 (some "h")).2.queue
        = (add_task initState 0 0 "a.txt" none .NORMAL 3 (some "h")).2.queue
    ∧ (add_task (add_task initState 0 0 "a.txt" none .NORMAL 3 (some "h")).2
          1 1 "b.txt" none .NORMAL 3 (some "h")).2.objs
        = (add_task initState 0 0 "a.txt" none .NORMAL 3 (some "h")).2.objs
    ∧ (add_task (add_task initState 0 0 "a.txt" none .NORMAL 3 (some "h")).2
          1 1 "b.txt" none .NORMAL 3 (some "h")).2.statistics.total_tasks
        = initState.statistics.total_tasks + 1
    ∧ (add_task (add_task initState 0 0 "a.txt" none .NORMAL 3 (some "h")).2
          1 1 "b.txt" none .NORMAL 3 (some "h")).2.statistics.cancelled_tasks
        = initState.statistics.cancelled_tasks + 1 :=
  add_task_duplicate_suppression initState "h" (by rfl) 0 0 1 1 "a.txt" "b.txt"
    none none .NORMAL .NORMAL 3 3

/-- C8 counterexample: two distinct tasks created by the processor within
the same millisecond (`int(time.time() * 1000)` equal) receive the same
generated task id. -/
theorem task_id_collision_counterexample :
    (add_task initState 5 0 "a.txt" none .NORMAL 3 none).1
        ≠ (add_task (add_task initState 5 0 "a.txt" none .NORMAL 3 none).2
            5 1 "b.txt" none .NORMAL 3 none).1
    ∧ (add_task initState 5 0 "a.txt" none .NORMAL 3 none).1.task_id
        = (add_task (add_task initState 5 0 "a.txt" none .NORMAL 3 none).2
            5 1 "b.txt" none .NORMAL 3 none).1.task_id := by
  refine ⟨?_, rfl⟩
  intro h
  have := congrArg BatchTask.input_file h
  simp [add_task, newBatchTask] at this

/-- C6 counterexample: a unit of work that exceeds the 300-second ceiling is
marked `FAILED` outright — here with `retry_count = 0 < 3 = max_retries` the
task still ends `FAILED`, not `RETRYING`, and no retry is counted. -/
theorem timeout_not_retried_counterexample :
    (run [.add 0 0 "a.txt" none .NORMAL 3 none,
          .dispatch 0,
          .futureDone 0 301 (.finished false "" "slow conversion")]).objs.map
        (fun t => (t.status, t.retry_count, t.max_retries, t.error_message))
      = [(.FAILED, 0, 3, some "")]
    ∧ (run [.add 0 0 "a.txt" none .NORMAL 3 none,
            .dispatch 0,
            .futureDone 0 301 (.finished false "" "slow conversion")]).statistics.failed_tasks = 1
    ∧ (run [.add 0 0 "a.txt" none .NORMAL 3 none,
            .dispatch 0,
            .futureDone 0 301 (.finished false "" "slow conversion")]).statistics.retry_count = 0
    ∧ ¬ (run [.add 0 0 "a.txt" none .NORMAL 3 none,
              .dispatch 0,
              .futureDone 0 301 (.finished false "" "slow conversion")]).objs.map
          (fun t => t.status) = [.RETRYING] := by
  refine ⟨by decide, by decide, by decide, by decide⟩

/-- C6 (amended): whatever the submitted work eventually returns, if it is
not finished within `FUTURE_TIMEOUT_SECS = 300` seconds the monitor's
`except` branch marks the task terminally `FAILED` (with
`error_message = str(TimeoutError()) = ""`), bypassing the retry logic even
when `retry_count < max_retries` and counting no retry. -/
theorem timeout_fails_terminally (st : ProcState) (i elapsedSecs : Nat)
    (t : BatchTask) (success : Bool) (result_text error : String)
    (hmon : st.monitors.contains i = true)
    (hobj : st.objs[i]? = some t)
    (hel : elapsedSecs > FUTURE_TIMEOUT_SECS)
    (hbudget : t.retry_count < t.max_retries) :
    (monitor_future st i elapsedSecs (.finished success result_text error)).objs[i]?
        = some { t with status := .FAILED, error_message := some "" }
    ∧ (monitor_future st i elapsedSecs
        (.finished success result_text error)).statistics.failed_tasks
        = st.statistics.failed_tasks + 1
    ∧ (monitor_future st i elapsedSecs
        (.finished success result_text error)).statistics.retry_count
        = st.statistics.retry_count := by
  have hlen : i < st.objs.length := by
    rcases List.getElem?_eq_some.mp hobj with ⟨hl, -⟩
    exact hl
  simp only [monitor_future, hmon, if_true, hobj]
  rw [if_pos hel]
  simp [List.getElem?_set_eq hlen]

/-- Witness for `timeout_fails_terminally` at the state reached by one add
and one dispatch. -/
theorem timeout_fails_terminally_witness :
    (monitor_future (run [.add 0 0 "a.txt" none .NORMAL 3 none, .dispatch 0])
        0 301 (.finished false "" "slow conversion")).objs[0]?
        = some { task_id := "task_0", input_file := "a.txt",
                 status := .FAILED, error_message := some "" }
    ∧ (monitor_future (run [.add 0 0 "a.txt" none .NORMAL 3 none, .dispatch 0])
        0 301 (.finished false "" "slow conversion")).statistics.failed_tasks
        = (run [.add 0 0 "a.txt" none .NORMAL 3 none,
                .dispatch 0]).statistics.failed_tasks + 1
    ∧ (monitor_future (run [.add 0 0 "a.txt" none .NORMAL 3 none, .dispatch 0])
        0 301 (.finished false "" "slow conversion")).statistics.retry_count
        = (run [.add 0 0 "a.txt" none .NORMAL 3 none,
                .dispatch 0]).statistics.retry_count :=
  timeout_fails_terminally (run [.add 0 0 "a.txt" none .NORMAL 3 none, .dispatch 0])
    0 301 { task_id := "task_0", input_file := "a.txt", status := .PROCESSING }
    false "" "slow conversion" (by decide) (by decide) (by decide) (by decide)

/-- A `List.set` with a value keeping the old task id preserves every
entry's task id. -/
lemma set_preserves_id (objs : List BatchTask) (j : Nat) (tj : BatchTask)
    (hj : objs[j]? = some tj) (u : BatchTask) (hid : u.task_id = tj.task_id)
    (i : Nat) (t : BatchTask) (hi : objs[i]? = some t) :
    ∃ t', (objs.set j u)[i]? = some t' ∧ t'.task_id = t.task_id := by
  by_cases hij : i = j
  · subst hij
    rw [hi] at hj
    cases hj
    rcases List.getElem?_eq_some.mp hi with ⟨hl, -⟩
    exact ⟨u, List.getElem?_set_eq hl, hid⟩
  · exact ⟨t, by rw [List.getElem?_set_ne (fun e => hij e.symm), hi], rfl⟩

/-- The `cancel_all` marking loops preserve every entry's task id. -/
lemma cancelRefs_preserves_id (refs : List Nat) :
    ∀ (objs : List BatchTask) (c : Nat) (i : Nat) (t : BatchTask),
      objs[i]? = some t →
      ∃ t', (cancelRefs refs (objs, c)).1[i]? = some t' ∧ t'.task_id = t.task_id := by
  induction refs with
  | nil => intro objs c i t hi; exact ⟨t, hi, rfl⟩
  | cons j rest ih =>
    intro objs c i t hi
    unfold cancelRefs
    cases hj : objs[j]? with
    | none => exact ih objs c i t hi
    | some tj =>
      rcases set_preserves_id objs j tj hj { tj with status := .CANCELLED } rfl
        i t hi with ⟨t', ht', hid⟩
      rcases ih (objs.set j { tj with status := .CANCELLED }) (c + 1) i t' ht'
        with ⟨t'', ht'', hid'⟩
      exact ⟨t'', ht'', hid'.trans hid⟩

/-- C8 (amended): the generated task id is assigned at creation — it is a
pure function of the creation millisecond timestamp, so two tasks created in
the same millisecond share an id (ids are not unique per task, see
`task_id_collision_counterexample`) — and no scheduler operation ever
changes the id of a registered task. -/
theorem task_id_immutable (st : ProcState) (op : ProcOp) (i : Nat)
    (t : BatchTask) (hobj : st.objs[i]? = some t) :
    (∃ t', (step st op).objs[i]? = some t' ∧ t'.task_id = t.task_id)
    ∧ (∀ nowMs c₁ c₂ if₁ if₂ of₁ of₂ p₁ p₂ m₁ m₂ h₁ h₂,
        (newBatchTask nowMs c₁ if₁ of₁ p₁ m₁ h₁).task_id
          = (newBatchTask nowMs c₂ if₂ of₂ p₂ m₂ h₂).task_id) := by
  refine ⟨?_, fun _ _ _ _ _ _ _ _ _ _ _ _ _ => rfl⟩
  have hlen : i < st.objs.length := by
    rcases List.getElem?_eq_some.mp hobj with ⟨hl, -⟩
    exact hl
  cases op with
  | add nowMs createdAt input_file output_file priority max_retries fileHash =>
    simp only [step, add_task]
    split
    · exact ⟨t, hobj, rfl⟩
    · exact ⟨t, by rw [List.getElem?_append_left hlen]; exact hobj, rfl⟩
  | dispatch j =>
    simp only [step, worker_step]
    split
    · exact ⟨t, hobj, rfl⟩
    · split
      · cases hj : st.objs[j]? with
        | none => simp only [hj]; exact ⟨t, hobj, rfl⟩
        | some tj =>
          simp only [hj]
          split
          · exact ⟨t, hobj, rfl⟩
          · exact set_preserves_id st.objs j tj hj
              { tj with status := .PROCESSING } rfl i t hobj
      · exact ⟨t, hobj, rfl⟩
  | futureDone j elapsedSecs ret =>
    cases ret with
    | wasCancelled =>
      simp only [step, monitor_future]
      split
      · exact ⟨t, hobj, rfl⟩
      · exact ⟨t, hobj, rfl⟩
    | raised excMsg =>
      simp only [step, monitor_future]
      split
      · cases hj : st.objs[j]? with
        | none => simp only [hj]; exact ⟨t, hobj, rfl⟩
        | some tj =>
          simp only [hj]
          exact set_preserves_id st.objs j tj hj
            { tj with status := .FAILED, error_message := some excMsg } rfl i t hobj
      · exact ⟨t, hobj, rfl⟩
    | finished success result_text error =>
      simp only [step, monitor_future]
      split
      · split
        · cases hj : st.objs[j]? with
          | none => simp only [hj]; exact ⟨t, hobj, rfl⟩
          | some tj =>
            simp only [hj]
            exact set_preserves_id st.objs j tj hj
              { tj with status := .FAILED, error_message := some "" } rfl i t hobj
        · simp only [handle_task_result]
          cases hj : st.objs[j]? with
          | none => simp only [hj]; exact ⟨t, hobj, rfl⟩
          | some tj =>
            simp only [hj]
            split
            · exact set_preserves_id st.objs j tj hj
                { tj with status := .COMPLETED,
                          result_text := some result_text } rfl i t hobj
            · split
              · exact set_preserves_id st.objs j tj hj
                  { tj with retry_count := tj.retry_count + 1,
                            status := .RETRYING } rfl i t hobj
              · exact set_preserves_id st.objs j tj hj
                  { tj with status := .FAILED,
                            error_message := some error } rfl i t hobj
      · exact ⟨t, hobj, rfl⟩
  | requeue j =>
    simp only [step, requeue_after_delay]
    cases hj : st.objs[j]? with
    | none => simp only [hj]; exact ⟨t, hobj, rfl⟩
    | some tj =>
      simp only [hj]
      split
      · exact set_preserves_id st.objs j tj hj
          { tj with status := .QUEUED } rfl i t hobj
      · exact ⟨t, hobj, rfl⟩
  | cancelTask j =>
    simp only [step, cancel_task]
    split
    · simp only [updateTask]
      cases hj : st.objs[j]? with
      | none => simp only [hj]; exact ⟨t, hobj, rfl⟩
      | some tj =>
        simp only [hj]
        exact set_preserves_id st.objs j tj hj
          { tj with status := .CANCELLED } rfl i t hobj
    · cases hj : st.objs[j]? with
      | none => simp only [hj]; exact ⟨t, hobj, rfl⟩
      | some tj =>
        simp only [hj]
        split
        · exact set_preserves_id st.objs j tj hj
            { tj with status := .CANCELLED } rfl i t hobj
        · exact ⟨t, hobj, rfl⟩
  | cancelAll =>
    simp only [step, cancel_all]
    rcases cancelRefs_preserves_id st.futures st.objs
        st.statistics.cancelled_tasks i t hobj with ⟨t', ht', hid⟩
    rcases cancelRefs_preserves_id st.queue
        (cancelRefs st.futures (st.objs, st.statistics.cancelled_tasks)).1
        (cancelRefs st.futures (st.objs, st.statistics.cancelled_tasks)).2
        i t' ht' with ⟨t'', ht'', hid'⟩
    exact ⟨t'', ht'', hid'.trans hid⟩

/-- Witness for `task_id_immutable` at a concrete state and operation. -/
theorem task_id_immutable_witness :
    ((∃ t', (step (run [.add 0 0 "a.txt" none .NORMAL 3 none]) (.cancelTask 0)).objs[0]?
        = some t' ∧ t'.task_id = "task_0")
    ∧ (∀ nowMs c₁ c₂ if₁ if₂ of₁ of₂ p₁ p₂ m₁ m₂ h₁ h₂,
        (newBatchTask nowMs c₁ if₁ of₁ p₁ m₁ h₁).task_id
          = (newBatchTask nowMs c₂ if₂ of₂ p₂ m₂ h₂).task_id)) :=
  task_id_immutable (run [.add 0 0 "a.txt" none .NORMAL 3 none]) (.cancelTask 0) 0
    { task_id := "task_0", input_file := "a.txt", status := .QUEUED,
      file_hash := none } (by decide)

/-- C7 counterexample: a queued task cancelled by `cancel_task` ends
`CANCELLED`, yet the only notification ever emitted for it is the
`CONVERSION_STARTED` from admission — no task-cancelled notification
exists. -/
theorem cancel_emits_no_event_counterexample :
    (run [.add 0 0 "a.txt" none .NORMAL 3 none, .cancelTask 0]).objs.map
        (fun t => t.status) = [.CANCELLED]
    ∧ (run [.add 0 0 "a.txt" none .NORMAL 3 none, .cancelTask 0]).events.map
        (fun e => e.etype) = [.CONVERSION_STARTED]
    ∧ ((run [.add 0 0 "a.txt" none .NORMAL 3 none, .cancelTask 0]).events.filter
        (fun e => e.etype == .CONVERSION_CANCELLED)).length = 0 := by
  refine ⟨by decide, by decide, by decide⟩

/-- Events appended by one step are admission, completion or failure
notifications only. -/
lemma step_events_extend (st : ProcState) (op : ProcOp) :
    ∀ e ∈ (step st op).events, e ∈ st.events
      ∨ e.etype = .CONVERSION_STARTED
      ∨ e.etype = .CONVERSION_COMPLETED
      ∨ e.etype = .CONVERSION_FAILED := by
  intro e he
  cases op with
  | add nowMs createdAt input_file output_file priority max_retries fileHash =>
    simp only [step, add_task] at he
    split at he
    · exact Or.inl he
    · rcases List.mem_append.mp he with h | h
      · exact Or.inl h
      · simp at h
        subst h
        simp
  | dispatch j =>
    simp only [step, worker_step] at he
    split at he
    · exact Or.inl he
    · split at he
      · cases hj : st.objs[j]? with
        | none => simp only [hj] at he; exact Or.inl he
        | some tj =>
          simp only [hj] at he
          split at he
          · exact Or.inl he
          · exact Or.inl he
      · exact Or.inl he
  | futureDone j elapsedSecs ret =>
    cases ret with
    | wasCancelled =>
      simp only [step, monitor_future] at he
      split at he
      · exact Or.inl he
      · exact Or.inl he
    | raised excMsg =>
      simp only [step, monitor_future] at he
      split at he
      · cases hj : st.objs[j]? with
        | none => simp only [hj] at he; exact Or.inl he
        | some tj => simp only [hj] at he; exact Or.inl he
      · exact Or.inl he
    | finished success result_text error =>
      simp only [step, monitor_future] at he
      split at he
      · split at he
        · cases hj : st.objs[j]? with
          | none => simp only [hj] at he; exact Or.inl he
          | some tj => simp only [hj] at he; exact Or.inl he
        · simp only [handle_task_result] at he
          cases hj : st.objs[j]? with
          | none => simp only [hj] at he; exact Or.inl he
          | some tj =>
            simp only [hj] at he
            split at he
            · rcases List.mem_append.mp he with h | h
              · exact Or.inl h
              · simp at h
                subst h
                simp
            · split at he
              · exact Or.inl he
              · rcases List.mem_append.mp he with h | h
                · exact Or.inl h
                · simp at h
                  subst h
                  simp
      · exact Or.inl he
  | requeue j =>
    simp only [step, requeue_after_delay] at he
    cases hj : st.objs[j]? with
    | none => simp only [hj] at he; exact Or.inl he
    | some tj =>
      simp only [hj] at he
      split at he
      · exact Or.inl he
      · exact Or.inl he
  | cancelTask j =>
    simp only [step, cancel_task] at he
    split at he
    · exact Or.inl he
    · cases hj : st.objs[j]? with
      | none => simp only [hj] at he; exact Or.inl he
      | some tj =>
        simp only [hj] at he
        split at he
        · exact Or.inl he
        · exact Or.inl he
  | cancelAll =>
    simp only [step, cancel_all] at he
    exact Or.inl he

/-- A run only accumulates admission / completion / failure notifications. -/
lemma run_events_ok (ops : List ProcOp) :
    ∀ st : ProcState,
      (∀ e ∈ st.events, e.etype = .CONVERSION_STARTED
        ∨ e.etype = .CONVERSION_COMPLETED ∨ e.etype = .CONVERSION_FAILED) →
      ∀ e ∈ (ops.foldl step st).events, e.etype = .CONVERSION_STARTED
        ∨ e.etype = .CONVERSION_COMPLETED ∨ e.etype = .CONVERSION_FAILED := by
  induction ops with
  | nil => intro st h; exact h
  | cons op rest ih =>
    intro st h
    refine ih (step st op) ?_
    intro e he
    rcases step_events_extend st op e he with h' | h' | h' | h'
    · exact h e h'
    · exact Or.inl h'
    · exact Or.inr (Or.inl h')
    · exact Or.inr (Or.inr h')

/-- C7 (amended): the scheduler emits only three notification kinds —
task-started (`CONVERSION_STARTED`, at admission), task-completed and
task-failed.  No execution ever emits `CONVERSION_CANCELLED`: tasks that
end `CANCELLED` produce no notification, and neither `cancel_task` nor
`cancel_all` touches the event stream. -/
theorem scheduler_never_emits_cancelled (ops : List ProcOp) :
    ((run ops).events.all
        (fun e => e.etype == .CONVERSION_STARTED
          || e.etype == .CONVERSION_COMPLETED
          || e.etype == .CONVERSION_FAILED)) = true
    ∧ (∀ st i, ((cancel_task st i).2).events = st.events)
    ∧ (∀ st : ProcState, (cancel_all st).events = st.events) := by
  refine ⟨?_, ?_, fun st => rfl⟩
  · rw [List.all_eq_true]
    intro e he
    have := run_events_ok ops initState (by intro e h; simp [initState] at h) e he
    rcases this with h | h | h <;> simp [h]
  · intro st i
    simp only [cancel_task]
    split
    · rfl
    · cases hj : st.objs[i]? with
      | none => simp only [hj]
      | some tj =>
        simp only [hj]
        split <;> rfl

/-- A task that has not (yet) been counted as completed or failed. -/
def alive (t : BatchTask) : Bool :=
  !(t.status == .COMPLETED || t.status == .FAILED)

/-- Number of registered tasks not yet counted as completed or failed. -/
def liveCount (objs : List BatchTask) : Nat := objs.countP alive

/-- `countP` after a point update, in additive form. -/
lemma countP_set_getElem? (p : BatchTask → Bool) :
    ∀ (l : List BatchTask) (i : Nat) (a b : BatchTask), l[i]? = some a →
      (l.set i b).countP p + (if p a then 1 else 0)
        = l.countP p + (if p b then 1 else 0) := by
  intro l
  induction l with
  | nil => intro i a b h; cases h
  | cons x xs ih =>
    intro i a b h
    cases i with
    | zero =>
      simp only [List.getElem?_cons_zero, Option.some.injEq] at h
      subst h
      simp only [List.set_cons_zero, List.countP_cons]
      omega
    | succ n =>
      simp only [List.getElem?_cons_succ] at h
      simp only [List.set_cons_succ, List.countP_cons]
      have := ih n a b h
      omega

/-- `cancelRefs` leaves every entry equal or merely marked `CANCELLED`. -/
lemma cancelRefs_entry (refs : List Nat) :
    ∀ (objs : List BatchTask) (c : Nat) (i : Nat) (t : BatchTask),
      objs[i]? = some t →
      (cancelRefs refs (objs, c)).1[i]? = some t
        ∨ (cancelRefs refs (objs, c)).1[i]? = some { t with status := .CANCELLED } := by
  induction refs with
  | nil => intro objs c i t h; exact Or.inl h
  | cons j rest ih =>
    intro objs c i t h
    unfold cancelRefs
    cases hj : objs[j]? with
    | none => exact ih objs c i t h
    | some tj =>
      by_cases hij : i = j
      · subst hij
        rw [h] at hj
        cases hj
        have hset : (objs.set i { t with status := .CANCELLED })[i]?
            = some { t with status := .CANCELLED } := by
          rcases List.getElem?_eq_some.mp h with ⟨hl, -⟩
          exact List.getElem?_set_eq hl
        rcases ih (objs.set i { t with status := .CANCELLED }) (c + 1) i
            { t with status := .CANCELLED } hset with h' | h'
        · exact Or.inr h'
        · exact Or.inr h'
      · have hkeep : (objs.set j { tj with status := .CANCELLED })[i]? = some t := by
          rw [List.getElem?_set_ne (fun e => hij e.symm)]
          exact h
        exact ih (objs.set j { tj with status := .CANCELLED }) (c + 1) i t hkeep

/-- Marking referenced tasks `CANCELLED` does not change the live count,
provided every referenced entry is alive. -/
lemma cancelRefs_liveCount (refs : List Nat) :
    ∀ (objs : List BatchTask) (c : Nat),
      (∀ i ∈ refs, ∀ t, objs[i]? = some t → alive t = true) →
      liveCount (cancelRefs refs (objs, c)).1 = liveCount objs := by
  induction refs with
  | nil => intro objs c _; rfl
  | cons j rest ih =>
    intro objs c hal
    unfold cancelRefs
    cases hj : objs[j]? with
    | none =>
      exact ih objs c (fun i hi t ht => hal i (List.mem_cons_of_mem j hi) t ht)
    | some tj =>
      have halj : alive tj = true := hal j (List.mem_cons_self j rest) tj hj
      have hstep : liveCount (objs.set j { tj with status := .CANCELLED })
          = liveCount objs := by
        have := countP_set_getElem? alive objs j tj
          { tj with status := .CANCELLED } hj
        simp only [liveCount]
        have halc : alive { tj with status := .CANCELLED } = true := rfl
        rw [halj, halc] at this
        omega
      rw [ih (objs.set j { tj with status := .CANCELLED }) (c + 1) ?_, hstep]
      intro i hi t ht
      by_cases hij : i = j
      · subst hij
        rcases List.getElem?_eq_some.mp hj with ⟨hl, -⟩
        rw [List.getElem?_set_eq hl] at ht
        cases ht
        rfl
      · rw [List.getElem?_set_ne (fun e => hij e.symm)] at ht
        exact hal i (List.mem_cons_of_mem j hi) t ht

/-- The state invariant justifying the statistics bound: the completed and
failed counters plus the number of still-live registered tasks equal the
total; queued references point at `QUEUED`/`CANCELLED` tasks, outstanding
monitors at `PROCESSING`/`CANCELLED` tasks; queue and monitors are mutually
distinct references, and the futures dict is a duplicate-free subset of the
outstanding monitors. -/
def Inv (st : ProcState) : Prop :=
  st.statistics.completed_tasks + st.statistics.failed_tasks
      + liveCount st.objs = st.statistics.total_tasks
  ∧ (∀ i ∈ st.queue, ∃ t, st.objs[i]? = some t
      ∧ (t.status = .QUEUED ∨ t.status = .CANCELLED))
  ∧ (∀ i ∈ st.monitors, ∃ t, st.objs[i]? = some t
      ∧ (t.status = .PROCESSING ∨ t.status = .CANCELLED))
  ∧ (st.queue ++ st.monitors).Nodup
  ∧ (∀ i ∈ st.futures, i ∈ st.monitors)
  ∧ st.futures.Nodup

lemma inv_init : Inv initState := by
  refine ⟨rfl, ?_, ?_, ?_, ?_, ?_⟩ <;> simp [initState]

lemma countP_alive_queued (t : BatchTask) (h : t.status = .QUEUED) :
    List.countP alive [t] = 1 := by
  simp [alive, List.countP_cons, h]

lemma inv_add (st : ProcState) (h : Inv st) (nowMs createdAt : Nat)
    (input_file : String) (output_file : Option String)
    (priority : TaskPriority) (max_retries : Nat) (fileHash : Option String) :
    Inv (add_task st nowMs createdAt input_file output_file priority
      max_retries fileHash).2 := by
  obtain ⟨hA, hB, hC, hD, hE, hF⟩ := h
  simp only [add_task]
  split
  · exact ⟨hA, hB, hC, hD, hE, hF⟩
  · have hqn : st.objs.length ∉ st.queue := by
      intro hmem
      rcases hB _ hmem with ⟨t, ht, -⟩
      rcases List.getElem?_eq_some.mp ht with ⟨hl, -⟩
      omega
    have hmn : st.objs.length ∉ st.monitors := by
      intro hmem
      rcases hC _ hmem with ⟨t, ht, -⟩
      rcases List.getElem?_eq_some.mp ht with ⟨hl, -⟩
      omega
    rcases List.nodup_append.mp hD with ⟨hq, hm, hdisj⟩
    refine ⟨?_, ?_, ?_, ?_, hE, hF⟩
    · dsimp only
      simp only [liveCount, List.countP_append] at hA ⊢
      rw [countP_alive_queued _ rfl]
      omega
    · intro i hi
      rcases List.mem_append.mp hi with hi | hi
      · rcases hB i hi with ⟨t, ht, hstat⟩
        rcases List.getElem?_eq_some.mp ht with ⟨hl, -⟩
        exact ⟨t, by rw [List.getElem?_append_left hl]; exact ht, hstat⟩
      · simp only [List.mem_singleton] at hi
        subst hi
        refine ⟨{ newBatchTask nowMs createdAt input_file output_file priority
            max_retries fileHash with status := .QUEUED }, ?_, Or.inl rfl⟩
        rw [List.getElem?_append_right (le_refl _)]
        simp
    · intro i hi
      rcases hC i hi with ⟨t, ht, hstat⟩
      rcases List.getElem?_eq_some.mp ht with ⟨hl, -⟩
      exact ⟨t, by rw [List.getElem?_append_left hl]; exact ht, hstat⟩
    · rw [List.nodup_append]
      refine ⟨?_, hm, ?_⟩
      · rw [List.nodup_append]
        refine ⟨hq, List.nodup_singleton _, ?_⟩
        intro a ha hb
        simp only [List.mem_singleton] at hb
        subst hb
        exact hqn ha
      · intro a ha hb
        rcases List.mem_append.mp ha with ha | ha
        · exact hdisj ha hb
        · simp only [List.mem_singleton] at ha
          subst ha
          exact hmn hb

lemma inv_dispatch (st : ProcState) (h : Inv st) (j : Nat) :
    Inv (worker_step st j) := by
  obtain ⟨hA, hB, hC, hD, hE, hF⟩ := h
  rcases List.nodup_append.mp hD with ⟨hq, hm, hdisj⟩
  simp only [worker_step]
  split
  · exact ⟨hA, hB, hC, hD, hE, hF⟩
  · split
    · next hcont =>
      have hj : j ∈ st.queue := by simpa using hcont
      have hDq : ((st.queue.erase j) ++ st.monitors).Nodup :=
        (List.Sublist.append_right (List.erase_sublist j st.queue)
          st.monitors).nodup hD
      cases hobj : st.objs[j]? with
      | none =>
        refine ⟨hA, ?_, hC, hDq, hE, hF⟩
        intro i hi
        exact hB i (List.mem_of_mem_erase hi)
      | some tj =>
        simp only [hobj]
        split
        · refine ⟨hA, ?_, hC, hDq, hE, hF⟩
          intro i hi
          exact hB i (List.mem_of_mem_erase hi)
        · next hnc =>
          obtain ⟨tq, htq, hstatq⟩ := hB j hj
          rw [hobj] at htq
          cases htq
          have hQ : tj.status = .QUEUED := by
            rcases hstatq with h' | h'
            · exact h'
            · exact absurd h' hnc
          have hjlen : j < st.objs.length := by
            rcases List.getElem?_eq_some.mp hobj with ⟨hl, -⟩
            exact hl
          have hjm : j ∉ st.monitors := fun hm' => hdisj hj hm'
          have hjq' : j ∉ st.queue.erase j := by
            intro h'
            exact absurd (hq.mem_erase_iff.mp h').1 (by simp)
          refine ⟨?_, ?_, ?_, ?_, ?_, ?_⟩
          · dsimp only
            simp only [liveCount] at hA ⊢
            have hset := countP_set_getElem? alive st.objs j tj
              { tj with status := .PROCESSING } hobj
            have h1 : alive tj = true := by simp [alive, hQ]
            have h2 : alive { tj with status := .PROCESSING } = true := rfl
            rw [h1, h2] at hset
            omega
          · intro i hi
            have hi' := hq.mem_erase_iff.mp hi
            rcases hB i hi'.2 with ⟨t, ht, hstat⟩
            refine ⟨t, ?_, hstat⟩
            rw [List.getElem?_set_ne (fun e => hi'.1 e.symm)]
            exact ht
          · intro i hi
            rcases List.mem_append.mp hi with hi | hi
            · have hij : i ≠ j := fun e => hjm (e ▸ hi)
              rcases hC i hi with ⟨t, ht, hstat⟩
              refine ⟨t, ?_, hstat⟩
              rw [List.getElem?_set_ne (fun e => hij e.symm)]
              exact ht
            · simp only [List.mem_singleton] at hi
              subst hi
              exact ⟨{ tj with status := .PROCESSING },
                List.getElem?_set_eq hjlen, Or.inl rfl⟩
          · rw [List.nodup_append]
            refine ⟨(List.erase_sublist j st.queue).nodup hq, ?_, ?_⟩
            · rw [List.nodup_append]
              refine ⟨hm, List.nodup_singleton _, ?_⟩
              intro a ha hb
              simp only [List.mem_singleton] at hb
              subst hb
              exact hjm ha
            · intro a ha hb
              have ha' := hq.mem_erase_iff.mp ha
              rcases List.mem_append.mp hb with hb | hb
              · exact hdisj ha'.2 hb
              · simp only [List.mem_singleton] at hb
                exact ha'.1 hb
          · intro i hi
            rcases List.mem_append.mp hi with hi | hi
            · exact List.mem_append.mpr (Or.inl (hE i hi))
            · exact List.mem_append.mpr (Or.inr hi)
          · rw [List.nodup_append]
            refine ⟨hF, List.nodup_singleton _, ?_⟩
            intro a ha hb
            simp only [List.mem_singleton] at hb
            subst hb
            exact hjm (hE _ ha)
    · exact ⟨hA, hB, hC, hD, hE, hF⟩

/-- Invariant preservation for the common "terminal completion" shape of
`monitor_future` / `handle_task_result`: the task at an outstanding monitor
reference is overwritten with a no-longer-live value, the reference is
retired from monitors and futures, and exactly one of the completed/failed
counters grows by one. -/
lemma inv_finish_dead (st : ProcState) (hA : st.statistics.completed_tasks
      + st.statistics.failed_tasks + liveCount st.objs
      = st.statistics.total_tasks)
    (hB : ∀ i ∈ st.queue, ∃ t, st.objs[i]? = some t
      ∧ (t.status = .QUEUED ∨ t.status = .CANCELLED))
    (hC : ∀ i ∈ st.monitors, ∃ t, st.objs[i]? = some t
      ∧ (t.status = .PROCESSING ∨ t.status = .CANCELLED))
    (hD : (st.queue ++ st.monitors).Nodup)
    (hE : ∀ i ∈ st.futures, i ∈ st.monitors)
    (hF : st.futures.Nodup)
    (j : Nat) (hjmon : j ∈ st.monitors)
    (tj : BatchTask) (hobj : st.objs[j]? = some tj)
    (u : BatchTask) (hdead : alive u = false)
    (dc df : Nat) (hsum : dc + df = 1)
    (ev' : List Event) :
    Inv { st with objs := st.objs.set j u
                  statistics := { st.statistics with
                    completed_tasks := st.statistics.completed_tasks + dc
                    failed_tasks := st.statistics.failed_tasks + df }
                  futures := st.futures.erase j
                  monitors := st.monitors.erase j
                  events := ev' } := by
  rcases List.nodup_append.mp hD with ⟨hq, hm, hdisj⟩
  have hjq : j ∉ st.queue := fun h' => hdisj h' hjmon
  have halj : alive tj = true := by
    rcases hC j hjmon with ⟨t, ht, hstat⟩
    rw [hobj] at ht
    cases ht
    rcases hstat with h' | h' <;> simp [alive, h']
  refine ⟨?_, ?_, ?_, ?_, ?_, ?_⟩
  · dsimp only
    simp only [liveCount] at hA ⊢
    have hset := countP_set_getElem? alive st.objs j tj u hobj
    rw [halj, hdead] at hset
    simp at hset
    omega
  · intro i hi
    have hij : i ≠ j := fun e => hjq (e ▸ hi)
    rcases hB i hi with ⟨t, ht, hstat⟩
    refine ⟨t, ?_, hstat⟩
    rw [List.getElem?_set_ne (fun e => hij e.symm)]
    exact ht
  · intro i hi
    have hi' := hm.mem_erase_iff.mp hi
    rcases hC i hi'.2 with ⟨t, ht, hstat⟩
    refine ⟨t, ?_, hstat⟩
    rw [List.getElem?_set_ne (fun e => hi'.1 e.symm)]
    exact ht
  · exact (List.Sublist.append_left (List.erase_sublist j st.monitors)
      st.queue).nodup hD
  · intro i hi
    have hi' := hF.mem_erase_iff.mp hi
    exact hm.mem_erase_iff.mpr ⟨hi'.1, hE i hi'.2⟩
  · exact (List.erase_sublist j st.futures).nodup hF

lemma inv_futureDone (st : ProcState) (h : Inv st) (j elapsedSecs : Nat)
    (ret : ConvReturn) : Inv (monitor_future st j elapsedSecs ret) := by
  obtain ⟨hA, hB, hC, hD, hE, hF⟩ := h
  rcases List.nodup_append.mp hD with ⟨hq, hm, hdisj⟩
  cases ret with
  | wasCancelled =>
    simp only [monitor_future]
    split
    · refine ⟨hA, hB, ?_, ?_, ?_, ?_⟩
      · intro i hi
        exact hC i (hm.mem_erase_iff.mp hi).2
      · exact (List.Sublist.append_left (List.erase_sublist j st.monitors)
          st.queue).nodup hD
      · intro i hi
        have hi' := hF.mem_erase_iff.mp hi
        exact hm.mem_erase_iff.mpr ⟨hi'.1, hE i hi'.2⟩
      · exact (List.erase_sublist j st.futures).nodup hF
    · exact ⟨hA, hB, hC, hD, hE, hF⟩
  | raised excMsg =>
    simp only [monitor_future]
    split
    · next hcont =>
      have hjmon : j ∈ st.monitors := by simpa using hcont
      cases hobj : st.objs[j]? with
      | none =>
        rcases hC j hjmon with ⟨t, ht, -⟩
        rw [hobj] at ht
        cases ht
      | some tj =>
        simp only [hobj]
        exact inv_finish_dead st hA hB hC hD hE hF j hjmon tj hobj
          { tj with status := .FAILED, error_message := some excMsg } rfl
          0 1 rfl _
    · exact ⟨hA, hB, hC, hD, hE, hF⟩
  | finished success result_text error =>
    simp only [monitor_future]
    split
    · next hcont =>
      have hjmon : j ∈ st.monitors := by simpa using hcont
      cases hobj : st.objs[j]? with
      | none =>
        rcases hC j hjmon with ⟨t, ht, -⟩
        rw [hobj] at ht
        cases ht
      | some tj =>
        split
        · simp only [hobj]
          exact inv_finish_dead st hA hB hC hD hE hF j hjmon tj hobj
            { tj with status := .FAILED, error_message := some "" } rfl
            0 1 rfl _
        · simp only [handle_task_result, hobj]
          split
          · exact inv_finish_dead st hA hB hC hD hE hF j hjmon tj hobj
              { tj with status := .COMPLETED, result_text := some result_text }
              rfl 1 0 rfl _
          · split
            · -- retry: the task stays live, counters other than the retry
              -- statistic are unchanged
              have halj : alive tj = true := by
                rcases hC j hjmon with ⟨t, ht, hstat⟩
                rw [hobj] at ht
                cases ht
                rcases hstat with h' | h' <;> simp [alive, h']
              have hjq : j ∉ st.queue := fun h' => hdisj h' hjmon
              refine ⟨?_, ?_, ?_, ?_, ?_, ?_⟩
              · dsimp only
                simp only [liveCount] at hA ⊢
                have hset := countP_set_getElem? alive st.objs j tj
                  { tj with retry_count := tj.retry_count + 1,
                            status := .RETRYING } hobj
                have h2 : alive
                    { tj with retry_count := tj.retry_count + 1,
                              status := .RETRYING } = true := by
                  simp [alive]
                rw [halj, h2] at hset
                simp only [if_pos rfl] at hset
                omega
              · intro i hi
                have hij : i ≠ j := fun e => hjq (e ▸ hi)
                rcases hB i hi with ⟨t, ht, hstat⟩
                refine ⟨t, ?_, hstat⟩
                rw [List.getElem?_set_ne (fun e => hij e.symm)]
                exact ht
              · intro i hi
                have hi' := hm.mem_erase_iff.mp hi
                rcases hC i hi'.2 with ⟨t, ht, hstat⟩
                refine ⟨t, ?_, hstat⟩
                rw [List.getElem?_set_ne (fun e => hi'.1 e.symm)]
                exact ht
              · exact (List.Sublist.append_left
                  (List.erase_sublist j st.monitors) st.queue).nodup hD
              · intro i hi
                have hi' := hF.mem_erase_iff.mp hi
                exact hm.mem_erase_iff.mpr ⟨hi'.1, hE i hi'.2⟩
              · exact (List.erase_sublist j st.futures).nodup hF
            · exact inv_finish_dead st hA hB hC hD hE hF j hjmon tj hobj
                { tj with status := .FAILED, error_message := some error } rfl
                0 1 rfl _
    · exact ⟨hA, hB, hC, hD, hE, hF⟩

lemma inv_requeue (st : ProcState) (h : Inv st) (j : Nat) :
    Inv (requeue_after_delay st j) := by
  obtain ⟨hA, hB, hC, hD, hE, hF⟩ := h
  rcases List.nodup_append.mp hD with ⟨hq, hm, hdisj⟩
  simp only [requeue_after_delay]
  cases hobj : st.objs[j]? with
  | none => exact ⟨hA, hB, hC, hD, hE, hF⟩
  | some tj =>
    simp only [hobj]
    split
    · next hcond =>
      have hR : tj.status = .RETRYING := by
        simp only [Bool.and_eq_true, Bool.not_eq_true', decide_eq_true_eq]
          at hcond
        exact hcond.2
      have hjlen : j < st.objs.length := by
        rcases List.getElem?_eq_some.mp hobj with ⟨hl, -⟩
        exact hl
      have hjq : j ∉ st.queue := by
        intro h'
        rcases hB j h' with ⟨t, ht, hstat⟩
        rw [hobj] at ht
        cases ht
        rcases hstat with h'' | h'' <;> rw [hR] at h'' <;> cases h''
      have hjm : j ∉ st.monitors := by
        intro h'
        rcases hC j h' with ⟨t, ht, hstat⟩
        rw [hobj] at ht
        cases ht
        rcases hstat with h'' | h'' <;> rw [hR] at h'' <;> cases h''
      refine ⟨?_, ?_, ?_, ?_, hE, hF⟩
      · dsimp only
        simp only [liveCount] at hA ⊢
        have hset := countP_set_getElem? alive st.objs j tj
          { tj with status := .QUEUED } hobj
        have h1 : alive tj = true := by simp [alive, hR]
        have h2 : alive { tj with status := .QUEUED } = true := rfl
        rw [h1, h2] at hset
        omega
      · intro i hi
        rcases List.mem_append.mp hi with hi | hi
        · have hij : i ≠ j := fun e => hjq (e ▸ hi)
          rcases hB i hi with ⟨t, ht, hstat⟩
          refine ⟨t, ?_, hstat⟩
          rw [List.getElem?_set_ne (fun e => hij e.symm)]
          exact ht
        · simp only [List.mem_singleton] at hi
          subst hi
          exact ⟨{ tj with status := .QUEUED },
            List.getElem?_set_eq hjlen, Or.inl rfl⟩
      · intro i hi
        have hij : i ≠ j := fun e => hjm (e ▸ hi)
        rcases hC i hi with ⟨t, ht, hstat⟩
        refine ⟨t, ?_, hstat⟩
        rw [List.getElem?_set_ne (fun e => hij e.symm)]
        exact ht
      · rw [List.nodup_append]
        refine ⟨?_, hm, ?_⟩
        · rw [List.nodup_append]
          refine ⟨hq, List.nodup_singleton _, ?_⟩
          intro a ha hb
          simp only [List.mem_singleton] at hb
          subst hb
          exact hjq ha
        · intro a ha hb
          rcases List.mem_append.mp ha with ha | ha
          · exact hdisj ha hb
          · simp only [List.mem_singleton] at ha
            subst ha
            exact hjm hb
    · exact ⟨hA, hB, hC, hD, hE, hF⟩

lemma inv_cancelTask (st : ProcState) (h : Inv st) (j : Nat) :
    Inv (cancel_task st j).2 := by
  obtain ⟨hA, hB, hC, hD, hE, hF⟩ := h
  rcases List.nodup_append.mp hD with ⟨hq, hm, hdisj⟩
  simp only [cancel_task]
  split
  · next hfut =>
    have hjf : j ∈ st.futures := by simpa using hfut
    have hjmon := hE j hjf
    obtain ⟨tj, hobj, hstat⟩ := hC j hjmon
    have hjlen : j < st.objs.length := by
      rcases List.getElem?_eq_some.mp hobj with ⟨hl, -⟩
      exact hl
    have hjq : j ∉ st.queue := fun h' => hdisj h' hjmon
    simp only [updateTask, hobj]
    refine ⟨?_, ?_, ?_, hD, ?_, ?_⟩
    · dsimp only
      simp only [liveCount] at hA ⊢
      have hset := countP_set_getElem? alive st.objs j tj
        { tj with status := .CANCELLED } hobj
      have h1 : alive tj = true := by
        rcases hstat with h' | h' <;> simp [alive, h']
      have h2 : alive { tj with status := .CANCELLED } = true := rfl
      rw [h1, h2] at hset
      omega
    · intro i hi
      have hij : i ≠ j := fun e => hjq (e ▸ hi)
      rcases hB i hi with ⟨t, ht, hstat'⟩
      refine ⟨t, ?_, hstat'⟩
      rw [List.getElem?_set_ne (fun e => hij e.symm)]
      exact ht
    · intro i hi
      by_cases hij : i = j
      · subst hij
        exact ⟨{ tj with status := .CANCELLED },
          List.getElem?_set_eq hjlen, Or.inr rfl⟩
      · rcases hC i hi with ⟨t, ht, hstat'⟩
        refine ⟨t, ?_, hstat'⟩
        rw [List.getElem?_set_ne (fun e => hij e.symm)]
        exact ht
    · intro i hi
      exact hE i (List.mem_of_mem_erase hi)
    · exact (List.erase_sublist j st.futures).nodup hF
  · cases hobj : st.objs[j]? with
    | none => exact ⟨hA, hB, hC, hD, hE, hF⟩
    | some tj =>
      simp only [hobj]
      split
      · next hQ =>
        have hjlen : j < st.objs.length := by
          rcases List.getElem?_eq_some.mp hobj with ⟨hl, -⟩
          exact hl
        refine ⟨?_, ?_, ?_, hD, hE, hF⟩
        · dsimp only
          simp only [liveCount] at hA ⊢
          have hset := countP_set_getElem? alive st.objs j tj
            { tj with status := .CANCELLED } hobj
          have h1 : alive tj = true := by simp [alive, hQ]
          have h2 : alive { tj with status := .CANCELLED } = true := rfl
          rw [h1, h2] at hset
          omega
        · intro i hi
          by_cases hij : i = j
          · subst hij
            exact ⟨{ tj with status := .CANCELLED },
              List.getElem?_set_eq hjlen, Or.inr rfl⟩
          · rcases hB i hi with ⟨t, ht, hstat'⟩
            refine ⟨t, ?_, hstat'⟩
            rw [List.getElem?_set_ne (fun e => hij e.symm)]
            exact ht
        · intro i hi
          by_cases hij : i = j
          · subst hij
            exact ⟨{ tj with status := .CANCELLED },
              List.getElem?_set_eq hjlen, Or.inr rfl⟩
          · rcases hC i hi with ⟨t, ht, hstat'⟩
            refine ⟨t, ?_, hstat'⟩
            rw [List.getElem?_set_ne (fun e => hij e.symm)]
            exact ht
      · exact ⟨hA, hB, hC, hD, hE, hF⟩

lemma inv_cancelAll (st : ProcState) (h : Inv st) : Inv (cancel_all st) := by
  obtain ⟨hA, hB, hC, hD, hE, hF⟩ := h
  rcases List.nodup_append.mp hD with ⟨hq, hm, hdisj⟩
  have halF : ∀ i ∈ st.futures, ∀ t, st.objs[i]? = some t → alive t = true := by
    intro i hi t ht
    rcases hC i (hE i hi) with ⟨t', ht', hstat⟩
    rw [ht] at ht'
    cases ht'
    rcases hstat with h' | h' <;> simp [alive, h']
  have halQ : ∀ i ∈ st.queue, ∀ t,
      (cancelRefs st.futures (st.objs, st.statistics.cancelled_tasks)).1[i]?
        = some t → alive t = true := by
    intro i hi t ht
    rcases hB i hi with ⟨t₀, ht₀, hstat⟩
    rcases cancelRefs_entry st.futures st.objs st.statistics.cancelled_tasks
        i t₀ ht₀ with h' | h' <;> rw [ht] at h' <;> cases h'
    · rcases hstat with h'' | h'' <;> simp [alive, h'']
    · rfl
  simp only [cancel_all]
  refine ⟨?_, ?_, ?_, ?_, ?_, ?_⟩
  · dsimp only
    simp only [liveCount] at hA ⊢
    have e1 := cancelRefs_liveCount st.futures st.objs
      st.statistics.cancelled_tasks halF
    have e2 := cancelRefs_liveCount st.queue
      (cancelRefs st.futures (st.objs, st.statistics.cancelled_tasks)).1
      (cancelRefs st.futures (st.objs, st.statistics.cancelled_tasks)).2 halQ
    simp only [liveCount] at e1 e2
    rw [Prod.mk.eta] at e2
    omega
  · intro i hi
    cases hi
  · intro i hi
    rcases hC i hi with ⟨t, ht, hstat⟩
    rcases cancelRefs_entry st.futures st.objs st.statistics.cancelled_tasks
        i t ht with h1 | h1
    · rcases cancelRefs_entry st.queue _ _ i t h1 with h2 | h2
      · exact ⟨t, h2, hstat⟩
      · exact ⟨{ t with status := .CANCELLED }, h2, Or.inr rfl⟩
    · rcases cancelRefs_entry st.queue _ _ i { t with status := .CANCELLED }
          h1 with h2 | h2
      · exact ⟨{ t with status := .CANCELLED }, h2, Or.inr rfl⟩
      · exact ⟨{ t with status := .CANCELLED }, h2, Or.inr rfl⟩
  · simpa using hm
  · intro i hi
    cases hi
  · exact List.nodup_nil

/-- Every operation preserves the invariant. -/
lemma inv_step (st : ProcState) (h : Inv st) (op : ProcOp) :
    Inv (step st op) := by
  cases op with
  | add nowMs createdAt input_file output_file priority max_retries fileHash =>
    exact inv_add st h nowMs createdAt input_file output_file priority
      max_retries fileHash
  | dispatch j => exact inv_dispatch st h j
  | futureDone j elapsedSecs ret => exact inv_futureDone st h j elapsedSecs ret
  | requeue j => exact inv_requeue st h j
  | cancelTask j => exact inv_cancelTask st h j
  | cancelAll => exact inv_cancelAll st h

/-- Every reachable state satisfies the invariant. -/
lemma inv_run (ops : List ProcOp) : Inv (run ops) := by
  suffices h : ∀ st : ProcState, Inv st → Inv (ops.foldl step st) from
    h initState inv_init
  induction ops with
  | nil => intro st h; exact h
  | cons op rest ih => intro st h; exact ih (step st op) (inv_step st h op)

/-- `total_tasks` never shrinks: only `add_task` touches it (by one). -/
lemma total_monotone (st : ProcState) (op : ProcOp) :
    st.statistics.total_tasks ≤ (step st op).statistics.total_tasks := by
  cases op with
  | add nowMs createdAt input_file output_file priority max_retries fileHash =>
    simp only [step, add_task]
    split
    · exact Nat.le_refl _
    · dsimp only
      omega
  | dispatch j =>
    simp only [step, worker_step]
    split
    · exact Nat.le_refl _
    · split
      · cases hobj : st.objs[j]? with
        | none => simp only [hobj]; exact Nat.le_refl _
        | some tj =>
          simp only [hobj]
          split
          · exact Nat.le_refl _
          · exact Nat.le_refl _
      · exact Nat.le_refl _
  | futureDone j elapsedSecs ret =>
    cases ret with
    | wasCancelled =>
      simp only [step, monitor_future]
      split
      · exact Nat.le_refl _
      · exact Nat.le_refl _
    | raised excMsg =>
      simp only [step, monitor_future]
      split
      · cases hobj : st.objs[j]? with
        | none => simp only [hobj]; exact Nat.le_refl _
        | some tj => simp only [hobj]; exact Nat.le_refl _
      · exact Nat.le_refl _
    | finished success result_text error =>
      simp only [step, monitor_future]
      split
      · split
        · cases hobj : st.objs[j]? with
          | none => simp only [hobj]; exact Nat.le_refl _
          | some tj => simp only [hobj]; exact Nat.le_refl _
        · simp only [handle_task_result]
          cases hobj : st.objs[j]? with
          | none => simp only [hobj]; exact Nat.le_refl _
          | some tj =>
            simp only [hobj]
            split
            · exact Nat.le_refl _
            · split
              · exact Nat.le_refl _
              · exact Nat.le_refl _
      · exact Nat.le_refl _
  | requeue j =>
    simp only [step, requeue_after_delay]
    cases hobj : st.objs[j]? with
    | none => exact Nat.le_refl _
    | some tj =>
      simp only [hobj]
      split
      · exact Nat.le_refl _
      · exact Nat.le_refl _
  | cancelTask j =>
    simp only [step, cancel_task]
    split
    · cases hobj : st.objs[j]? with
      | none => simp only [hobj]; exact Nat.le_refl _
      | some tj => simp only [hobj]; exact Nat.le_refl _
    · cases hobj : st.objs[j]? with
      | none => simp only [hobj]; exact Nat.le_refl _
      | some tj =>
        simp only [hobj]
        split
        · exact Nat.le_refl _
        · exact Nat.le_refl _
  | cancelAll =>
    simp only [step, cancel_all]
    exact Nat.le_refl _

/-- C3 counterexample: after adding the same-fingerprint file three times,
`completed + failed + cancelled = 2` exceeds `total_tasks = 1` — the claimed
inequality fails because duplicate-suppressed tasks are counted in
`cancelled_tasks` but never in `total_tasks`. -/
theorem statistics_invariant_counterexample :
    (run [.add 0 0 "a.txt" none .NORMAL 3 (some "h"),
          .add 1 1 "b.txt" none .NORMAL 3 (some "h"),
          .add 2 2 "c.txt" none .NORMAL 3 (some "h")]).statistics.completed_tasks
      + (run [.add 0 0 "a.txt" none .NORMAL 3 (some "h"),
              .add 1 1 "b.txt" none .NORMAL 3 (some "h"),
              .add 2 2 "c.txt" none .NORMAL 3 (some "h")]).statistics.failed_tasks
      + (run [.add 0 0 "a.txt" none .NORMAL 3 (some "h"),
              .add 1 1 "b.txt" none .NORMAL 3 (some "h"),
              .add 2 2 "c.txt" none .NORMAL 3 (some "h")]).statistics.cancelled_tasks
      = 2
    ∧ (run [.add 0 0 "a.txt" none .NORMAL 3 (some "h"),
            .add 1 1 "b.txt" none .NORMAL 3 (some "h"),
            .add 2 2 "c.txt" none .NORMAL 3 (some "h")]).statistics.total_tasks = 1
    ∧ ¬ ((run [.add 0 0 "a.txt" none .NORMAL 3 (some "h"),
               .add 1 1 "b.txt" none .NORMAL 3 (some "h"),
               .add 2 2 "c.txt" none .NORMAL 3 (some "h")]).statistics.completed_tasks
        + (run [.add 0 0 "a.txt" none .NORMAL 3 (some "h"),
                .add 1 1 "b.txt" none .NORMAL 3 (some "h"),
                .add 2 2 "c.txt" none .NORMAL 3 (some "h")]).statistics.failed_tasks
        + (run [.add 0 0 "a.txt" none .NORMAL 3 (some "h"),
                .add 1 1 "b.txt" none .NORMAL 3 (some "h"),
                .add 2 2 "c.txt" none .NORMAL 3 (some "h")]).statistics.cancelled_tasks
        ≤ (run [.add 0 0 "a.txt" none .NORMAL 3 (some "h"),
                .add 1 1 "b.txt" none .NORMAL 3 (some "h"),
                .add 2 2 "c.txt" none .NORMAL 3 (some "h")]).statistics.total_tasks) := by
  refine ⟨by decide, by decide, by decide⟩

/-- C3 (amended): in every reachable statistics state,
`completed_tasks + failed_tasks ≤ total_tasks` (the `cancelled_tasks`
counter can overshoot `total_tasks` because duplicates and repeated
cancellations are counted without being admitted, so it is dropped from the
inequality); `total_tasks` never decreases under any step; and
`success_rate` is `0` whenever `total_tasks = 0`. -/
theorem statistics_counters_amended (ops : List ProcOp) :
    (run ops).statistics.completed_tasks + (run ops).statistics.failed_tasks
        ≤ (run ops).statistics.total_tasks
    ∧ (∀ op, (run ops).statistics.total_tasks
        ≤ (step (run ops) op).statistics.total_tasks)
    ∧ (∀ c f cc rc, BatchStatistics.success_rate
        { total_tasks := 0, completed_tasks := c, failed_tasks := f,
          cancelled_tasks := cc, retry_count := rc } = 0) := by
  refine ⟨?_, fun op => total_monotone (run ops) op, fun c f cc rc => rfl⟩
  have h := (inv_run ops).1
  omega

/-- C4: when the conversion result signals failure within the timeout, a
task with remaining retry budget on a non-cancelled processor has its
`retry_count` incremented and is marked `RETRYING` (one global retry
counted), and the deferred re-enqueue then marks it `QUEUED` and pushes it
back on the queue; otherwise (budget exhausted or processor cancelled) the
task is marked `FAILED` with the last failure's message.  An always-failing
callback with `max_retries = 2` therefore ends `FAILED` after exactly 2
retries (3 attempts), with `error_message` from the third failure. -/
theorem retry_then_requeue_and_exhaustion (st : ProcState)
    (i elapsedSecs : Nat) (t : BatchTask) (result_text error : String)
    (hmon : st.monitors.contains i = true)
    (hobj : st.objs[i]? = some t)
    (hel : elapsedSecs ≤ FUTURE_TIMEOUT_SECS) :
    (t.retry_count < t.max_retries → st.is_cancelled = false →
      (monitor_future st i elapsedSecs
          (.finished false result_text error)).objs[i]?
          = some { t with retry_count := t.retry_count + 1,
                          status := .RETRYING }
        ∧ (monitor_future st i elapsedSecs
            (.finished false result_text error)).statistics.retry_count
            = st.statistics.retry_count + 1
        ∧ (requeue_after_delay (monitor_future st i elapsedSecs
              (.finished false result_text error)) i).objs[i]?
            = some { t with retry_count := t.retry_count + 1,
                            status := .QUEUED }
        ∧ i ∈ (requeue_after_delay (monitor_future st i elapsedSecs
              (.finished false result_text error)) i).queue)
    ∧ (t.max_retries ≤ t.retry_count ∨ st.is_cancelled = true →
      (monitor_future st i elapsedSecs
          (.finished false result_text error)).objs[i]?
          = some { t with status := .FAILED, error_message := some error }
        ∧ (monitor_future st i elapsedSecs
            (.finished false result_text error)).statistics.failed_tasks
            = st.statistics.failed_tasks + 1)
    ∧ ((run [.add 0 0 "a.txt" none .NORMAL 2 none,
             .dispatch 0,
             .futureDone 0 1 (.finished false "" "e1"),
             .requeue 0,
             .dispatch 0,
             .futureDone 0 1 (.finished false "" "e2"),
             .requeue 0,
             .dispatch 0,
             .futureDone 0 1 (.finished false "" "e3")]).objs.map
          (fun u => (u.status, u.retry_count, u.error_message))
          = [(.FAILED, 2, some "e3")]
        ∧ (run [.add 0 0 "a.txt" none .NORMAL 2 none,
                .dispatch 0,
                .futureDone 0 1 (.finished false "" "e1"),
                .requeue 0,
                .dispatch 0,
                .futureDone 0 1 (.finished false "" "e2"),
                .requeue 0,
                .dispatch 0,
                .futureDone 0 1 (.finished false "" "e3")]).statistics.retry_count
          = 2
        ∧ (run [.add 0 0 "a.txt" none .NORMAL 2 none,
                .dispatch 0,
                .futureDone 0 1 (.finished false "" "e1"),
                .requeue 0,
                .dispatch 0,
                .futureDone 0 1 (.finished false "" "e2"),
                .requeue 0,
                .dispatch 0,
                .futureDone 0 1 (.finished false "" "e3")]).statistics.failed_tasks
          = 1) := by
  have hlen : i < st.objs.length := by
    rcases List.getElem?_eq_some.mp hobj with ⟨hl, -⟩
    exact hl
  refine ⟨?_, ?_, by decide, by decide, by decide⟩
  · intro hret hcanc
    have hbranch : (monitor_future st i elapsedSecs
        (.finished false result_text error))
        = { st with
            objs := st.objs.set i { t with retry_count := t.retry_count + 1, status := .RETRYING }
            statistics := { st.statistics with
              retry_count := st.statistics.retry_count + 1 }
            futures := st.futures.erase i
            monitors := st.monitors.erase i } := by
      simp only [monitor_future, hmon, if_true]
      rw [if_neg (by omega)]
      simp only [handle_task_result, hobj]
      rw [if_neg (by simp), if_pos (by simp [hret, hcanc])]
    rw [hbranch]
    have hset : (st.objs.set i { t with retry_count := t.retry_count + 1, status := .RETRYING })[i]?
        = some { t with retry_count := t.retry_count + 1, status := .RETRYING } :=
      List.getElem?_set_eq hlen
    refine ⟨hset, rfl, ?_, ?_⟩
    · simp only [requeue_after_delay, hset]
      rw [if_pos (by simp [hcanc])]
      have : i < (st.objs.set i { t with retry_count := t.retry_count + 1, status := .RETRYING }).length := by
        rw [List.length_set]
        exact hlen
      rw [List.getElem?_set_eq this]
    · simp only [requeue_after_delay, hset]
      rw [if_pos (by simp [hcanc])]
      exact List.mem_append.mpr (Or.inr (List.mem_singleton.mpr rfl))
  · intro hdone
    have hbranch : (monitor_future st i elapsedSecs
        (.finished false result_text error))
        = { st with
            objs := st.objs.set i { t with status := .FAILED, error_message := some error }
            statistics := { st.statistics with
              failed_tasks := st.statistics.failed_tasks + 1 }
            futures := st.futures.erase i
            events := st.events ++
              [{ etype := .CONVERSION_FAILED, task_id := t.task_id,
                 info := some error }]
            monitors := st.monitors.erase i } := by
      have hcond : (decide (t.retry_count < t.max_retries)
          && !st.is_cancelled) = false := by
        rcases hdone with h' | h'
        · simp only [Bool.and_eq_false_iff, decide_eq_false_iff_not]
          exact Or.inl (by omega)
        · simp [h']
      simp only [monitor_future, hmon, if_true]
      rw [if_neg (by omega)]
      simp only [handle_task_result, hobj]
      rw [if_neg (by simp), if_neg (by simp [hcond])]
    rw [hbranch]
    exact ⟨List.getElem?_set_eq hlen, rfl⟩

/-- Witness for `retry_then_requeue_and_exhaustion`: the retry branch at the
state reached by one add (budget 2) and one dispatch, with every hypothesis
discharged at concrete inputs. -/
theorem retry_then_requeue_and_exhaustion_witness :
    (monitor_future (run [.add 0 0 "a.txt" none .NORMAL 2 none, .dispatch 0])
        0 1 (.finished false "" "e1")).objs[0]?
        = some { task_id := "task_0", input_file := "a.txt",
                 max_retries := 2, retry_count := 0 + 1, status := .RETRYING }
    ∧ (monitor_future (run [.add 0 0 "a.txt" none .NORMAL 2 none,
          .dispatch 0]) 0 1 (.finished false "" "e1")).statistics.retry_count
        = (run [.add 0 0 "a.txt" none .NORMAL 2 none,
            .dispatch 0]).statistics.retry_count + 1
    ∧ (requeue_after_delay (monitor_future
          (run [.add 0 0 "a.txt" none .NORMAL 2 none, .dispatch 0])
          0 1 (.finished false "" "e1")) 0).objs[0]?
        = some { task_id := "task_0", input_file := "a.txt",
                 max_retries := 2, retry_count := 0 + 1, status := .QUEUED }
    ∧ 0 ∈ (requeue_after_delay (monitor_future
          (run [.add 0 0 "a.txt" none .NORMAL 2 none, .dispatch 0])
          0 1 (.finished false "" "e1")) 0).queue :=
  (retry_then_requeue_and_exhaustion
    (run [.add 0 0 "a.txt" none .NORMAL 2 none, .dispatch 0]) 0 1
    { task_id := "task_0", input_file := "a.txt", max_retries := 2,
      status := .PROCESSING } "" "e1" (by decide) (by decide) (by decide)).1
    (by decide) (by decide)

lemma lt_iff (a b : BatchTask) : BatchTask.lt a b = true ↔
    (b.priority.value < a.priority.value
      ∨ (a.priority.value = b.priority.value
          ∧ a.created_at < b.created_at)) := by
  simp only [BatchTask.lt]
  split
  · next h =>
    simp only [decide_eq_true_eq]
    omega
  · next h =>
    simp only [decide_eq_true_eq]
    omega

lemma lt_false_iff (a b : BatchTask) : BatchTask.lt a b = false ↔
    (a.priority.value < b.priority.value
      ∨ (a.priority.value = b.priority.value
          ∧ b.created_at ≤ a.created_at)) := by
  rw [← Bool.not_eq_true, lt_iff]
  omega

lemma lt_trans' {a b c : BatchTask} (h1 : BatchTask.lt a b = true)
    (h2 : BatchTask.lt b c = true) : BatchTask.lt a c = true := by
  rw [lt_iff] at h1 h2 ⊢
  omega

lemma lt_of_nlt_of_lt {x m r : BatchTask} (h1 : BatchTask.lt x m = false)
    (h2 : BatchTask.lt x r = true) : BatchTask.lt m r = true := by
  rw [lt_false_iff] at h1
  rw [lt_iff] at h2 ⊢
  omega

lemma lt_irrefl' (a : BatchTask) : BatchTask.lt a a = false := by
  rw [lt_false_iff]
  omega

open List in
lemma popMin_perm (m : BatchTask) : ∀ xs : List BatchTask,
    List.Perm ((popMin m xs).1 :: (popMin m xs).2) (m :: xs) := by
  intro xs
  induction xs generalizing m with
  | nil => exact List.Perm.refl _
  | cons x xs ih =>
    simp only [popMin]
    split
    · calc (popMin x xs).1 :: m :: (popMin x xs).2
          ~ m :: (popMin x xs).1 :: (popMin x xs).2 := List.Perm.swap m _ _
        _ ~ m :: x :: xs := (ih x).cons m
    · calc (popMin m xs).1 :: x :: (popMin m xs).2
          ~ x :: (popMin m xs).1 :: (popMin m xs).2 := List.Perm.swap x _ _
        _ ~ x :: m :: xs := (ih m).cons x
        _ ~ m :: x :: xs := List.Perm.swap m x xs

lemma popMin_min (m : BatchTask) : ∀ xs : List BatchTask,
    ∀ y ∈ m :: xs, BatchTask.lt y (popMin m xs).1 = false := by
  intro xs
  induction xs generalizing m with
  | nil =>
    intro y hy
    simp only [List.mem_singleton] at hy
    subst hy
    exact lt_irrefl' y
  | cons x xs ih =>
    intro y hy
    simp only [popMin]
    split
    · next hlt =>
      rcases List.mem_cons.mp hy with hy | hy
      · subst hy
        by_contra hmr'
        have hmr : BatchTask.lt y (popMin x xs).1 = true := by
          revert hmr'
          cases BatchTask.lt y (popMin x xs).1 <;> simp
        have hxr : BatchTask.lt x (popMin x xs).1 = false :=
          ih x x (List.mem_cons_self x xs)
        rw [lt_trans' hlt hmr] at hxr
        cases hxr
      · exact ih x y hy
    · next hlt =>
      have hxm : BatchTask.lt x m = false := by
        revert hlt
        cases BatchTask.lt x m <;> simp
      rcases List.mem_cons.mp hy with hy | hy
      · subst hy
        exact ih y y (List.mem_cons_self y xs)
      · rcases List.mem_cons.mp hy with hy | hy
        · subst hy
          by_contra hxr'
          have hxr : BatchTask.lt y (popMin m xs).1 = true := by
            revert hxr'
            cases BatchTask.lt y (popMin m xs).1 <;> simp
          have hmr : BatchTask.lt m (popMin m xs).1 = false :=
            ih m m (List.mem_cons_self m xs)
          rw [lt_of_nlt_of_lt hxm hxr] at hmr
          cases hmr
        · exact ih m y (List.mem_cons_of_mem m hy)

open List in
lemma dequeueAll_perm : ∀ (n : Nat) (l : List BatchTask), l.length ≤ n →
    List.Perm (dequeueAll l) l := by
  intro n
  induction n with
  | zero =>
    intro l h
    cases l with
    | nil => simp [dequeueAll]
    | cons x xs => simp at h
  | succ n ih =>
    intro l h
    cases l with
    | nil => simp [dequeueAll]
    | cons x xs =>
      have hrest : (popMin x xs).2.length = xs.length := popMin_snd_length x xs
      have ihrest := ih (popMin x xs).2 (by
        rw [hrest]
        simpa using Nat.le_of_succ_le_succ h)
      simp only [dequeueAll]
      calc (popMin x xs).1 :: dequeueAll (popMin x xs).2
          ~ (popMin x xs).1 :: (popMin x xs).2 := ihrest.cons _
        _ ~ x :: xs := popMin_perm x xs

lemma dequeueAll_pairwise : ∀ (n : Nat) (l : List BatchTask), l.length ≤ n →
    List.Pairwise (fun a b => BatchTask.lt b a = false) (dequeueAll l) := by
  intro n
  induction n with
  | zero =>
    intro l h
    cases l with
    | nil => simp [dequeueAll]
    | cons x xs => simp at h
  | succ n ih =>
    intro l h
    cases l with
    | nil => simp [dequeueAll]
    | cons x xs =>
      have hrest : (popMin x xs).2.length = xs.length := popMin_snd_length x xs
      have hlen : (popMin x xs).2.length ≤ n := by
        rw [hrest]
        simpa using Nat.le_of_succ_le_succ h
      simp only [dequeueAll]
      refine List.Pairwise.cons ?_ (ih _ hlen)
      intro y hy
      have hyrest : y ∈ (popMin x xs).2 :=
        (dequeueAll_perm _ _ hlen).mem_iff.mp hy
      have hymem : y ∈ x :: xs :=
        (popMin_perm x xs).mem_iff.mp (List.mem_cons_of_mem _ hyrest)
      exact popMin_min x xs y hymem

/-- C5: draining the priority queue dequeues tasks by `BatchTask.__lt__`:
the result is a permutation of the queue contents, sorted by priority
descending with ties broken by creation (= insertion) time ascending —
provided creation times strictly increase along the insertion order, which
is what ties arrival order to `created_at`. -/
theorem priority_queue_dequeue_order (l : List BatchTask)
    (hcr : List.Pairwise (fun a b => a.created_at < b.created_at) l) :
    List.Perm (dequeueAll l) l
    ∧ List.Pairwise (fun a b => b.priority.value ≤ a.priority.value
        ∧ (a.priority.value = b.priority.value →
            a.created_at < b.created_at)) (dequeueAll l) := by
  have hperm := dequeueAll_perm l.length l (Nat.le_refl _)
  refine ⟨hperm, ?_⟩
  have hle := dequeueAll_pairwise l.length l (Nat.le_refl _)
  have hne : List.Pairwise
      (fun a b : BatchTask => a.created_at ≠ b.created_at) (dequeueAll l) := by
    refine (List.Perm.pairwise_iff ?_ hperm).mpr
      (hcr.imp fun h => Nat.ne_of_lt h)
    intro a b hab
    exact hab.symm
  refine (hle.and hne).imp ?_
  rintro a b ⟨h1, h2⟩
  rw [lt_false_iff] at h1
  constructor
  · omega
  · intro h3
    omega

/-- Witness for `priority_queue_dequeue_order` on an interleaved insertion
order `[NORMAL, URGENT, LOW, URGENT, NORMAL]`. -/
theorem priority_queue_dequeue_order_witness :
    List.Perm (dequeueAll
      [{ task_id := "t0", input_file := "a", priority := .NORMAL, created_at := 0 },
       { task_id := "t1", input_file := "b", priority := .URGENT, created_at := 1 },
       { task_id := "t2", input_file := "c", priority := .LOW, created_at := 2 },
       { task_id := "t3", input_file := "d", priority := .URGENT, created_at := 3 },
       { task_id := "t4", input_file := "e", priority := .NORMAL, created_at := 4 }])
      [{ task_id := "t0", input_file := "a", priority := .NORMAL, created_at := 0 },
       { task_id := "t1", input_file := "b", priority := .URGENT, created_at := 1 },
       { task_id := "t2", input_file := "c", priority := .LOW, created_at := 2 },
       { task_id := "t3", input_file := "d", priority := .URGENT, created_at := 3 },
       { task_id := "t4", input_file := "e", priority := .NORMAL, created_at := 4 }]
    ∧ List.Pairwise (fun a b => b.priority.value ≤ a.priority.value
        ∧ (a.priority.value = b.priority.value →
            a.created_at < b.created_at)) (dequeueAll
      [{ task_id := "t0", input_file := "a", priority := .NORMAL, created_at := 0 },
       { task_id := "t1", input_file := "b", priority := .URGENT, created_at := 1 },
       { task_id := "t2", input_file := "c", priority := .LOW, created_at := 2 },
       { task_id := "t3", input_file := "d", priority := .URGENT, created_at := 3 },
       { task_id := "t4", input_file := "e", priority := .NORMAL, created_at := 4 }]) :=
  priority_queue_dequeue_order
    [{ task_id := "t0", input_file := "a", priority := .NORMAL, created_at := 0 },
     { task_id := "t1", input_file := "b", priority := .URGENT, created_at := 1 },
     { task_id := "t2", input_file := "c", priority := .LOW, created_at := 2 },
     { task_id := "t3", input_file := "d", priority := .URGENT, created_at := 3 },
     { task_id := "t4", input_file := "e", priority := .NORMAL, created_at := 4 }]
    (by decide)

end BatchProc
